import Mathlib

/-!
# Verification of the pyqtdeploy Builder (resource packaging and build
# descriptor generation)

A shallow embedding of the relevant parts of
`src/pyqtdeploy/builder/builder.py` and `src/pyqtdeploy/project/project.py`,
with theorems settling the frozen specification claims.

Conventions:
* Python lists become Lean `List`s, strings become `String`s.
* The builder accesses `project.site_packages_package`; the `Project`
  class of `project.py` (schema version 3) stores its site-packages
  groups in the `packages` list and defines no attribute of that name, so
  the builder's view of the project is modelled as a record carrying the
  fields the builder actually reads, `site_packages_package` among them.
* Filesystem and subprocess effects are modelled by explicit oracles and
  by returning the list of performed write operations.
-/

namespace Pyqtdeploy

/-- `QrcFile` / `QrcDirectory` from `project.py`: a memory-filesystem node.
`QrcDirectory` subclasses `QrcFile`, adding an ordered `contents` list. -/
inductive QrcContent where
  | file (name : String) (included : Bool)
  | dir (name : String) (included : Bool) (contents : List QrcContent)
  deriving Repr, Inhabited

mutual

def QrcContent.decEq : (a b : QrcContent) → Decidable (a = b)
  | .file n i, .file n' i' =>
    match String.decEq n n', inferInstanceAs (Decidable (i = i')) with
    | isTrue h1, isTrue h2 => isTrue (by rw [h1, h2])
    | isFalse h1, _ => isFalse (by intro h; cases h; exact h1 rfl)
    | _, isFalse h2 => isFalse (by intro h; cases h; exact h2 rfl)
  | .dir n i cs, .dir n' i' cs' =>
    match String.decEq n n', inferInstanceAs (Decidable (i = i')),
        QrcContent.decEqList cs cs' with
    | isTrue h1, isTrue h2, isTrue h3 => isTrue (by rw [h1, h2, h3])
    | isFalse h1, _, _ => isFalse (by intro h; cases h; exact h1 rfl)
    | _, isFalse h2, _ => isFalse (by intro h; cases h; exact h2 rfl)
    | _, _, isFalse h3 => isFalse (by intro h; cases h; exact h3 rfl)
  | .file _ _, .dir _ _ _ => isFalse (by intro h; cases h)
  | .dir _ _ _, .file _ _ => isFalse (by intro h; cases h)

def QrcContent.decEqList : (as bs : List QrcContent) → Decidable (as = bs)
  | [], [] => isTrue rfl
  | a :: as, b :: bs =>
    match QrcContent.decEq a b, QrcContent.decEqList as bs with
    | isTrue h1, isTrue h2 => isTrue (by rw [h1, h2])
    | isFalse h1, _ => isFalse (by intro h; cases h; exact h1 rfl)
    | _, isFalse h2 => isFalse (by intro h; cases h; exact h2 rfl)
  | [], _ :: _ => isFalse (by intro h; cases h)
  | _ :: _, [] => isFalse (by intro h; cases h)

end

instance : DecidableEq QrcContent := QrcContent.decEq

/-- The `name` attribute shared by `QrcFile` and `QrcDirectory`. -/
def QrcContent.name : QrcContent → String
  | .file n _ => n
  | .dir n _ _ => n

/-- The `included` attribute shared by `QrcFile` and `QrcDirectory`. -/
def QrcContent.included : QrcContent → Bool
  | .file _ i => i
  | .dir _ i _ => i

/-- `QrcPackage` from `project.py`. -/
structure QrcPackage where
  name : String
  contents : List QrcContent
  exclusions : List String
  deriving Repr, DecidableEq, Inhabited

/-- `QrcPackage()` as constructed by `QrcPackage.__init__`. -/
def QrcPackage.init : QrcPackage :=
  { name := ""
    contents := []
    exclusions := ["*.pyc", "*.pyo", "__pycache__", "*-info"] }

/-- The builder's view of the project: exactly the fields
`Builder.resources`, `Builder.build` and `Builder._write_qmake` read. -/
structure BuilderProject where
  application_package : QrcPackage
  stdlib_package : QrcPackage
  site_packages_package : QrcPackage
  pyqt_modules : List String
  application_is_pyqt5 : Bool
  extension_modules : List (String × String)
  python_target_include_dir : String
  python_target_library : String
  python_target_stdlib_dir : String
  deriving Repr, DecidableEq, Inhabited

/-- The `for content in contents: if content.included: ... break` pattern
used by `Builder.resources`: does the list hold an included entry? -/
def anyIncluded : List QrcContent → Bool
  | [] => false
  | c :: rest => if c.included then true else anyIncluded rest

/-- `Builder.resources` (builder.py lines 363-385): the ordered list of
resource identifiers to emit. -/
def resources (project : BuilderProject) : List String :=
  (if anyIncluded project.application_package.contents then [""] else [])
    ++ ["stdlib"]
    ++ (if project.pyqt_modules.length ≠ 0 then ["site-packages"]
        else if anyIncluded project.site_packages_package.contents then
          ["site-packages"]
        else [])

theorem anyIncluded_iff (cs : List QrcContent) :
    anyIncluded cs = true ↔ ∃ c ∈ cs, c.included = true := by
  induction cs with
  | nil => simp [anyIncluded]
  | cons c rest ih =>
      simp only [anyIncluded]
      by_cases h : c.included = true
      · simp [h]
      · simp only [Bool.not_eq_true] at h
        simp [h, ih]

theorem mem_resources_empty (project : BuilderProject) :
    "" ∈ resources project ↔
      ∃ c ∈ project.application_package.contents, c.included = true := by
  rw [← anyIncluded_iff]
  by_cases hA : anyIncluded project.application_package.contents = true <;>
    by_cases hP : project.pyqt_modules.length ≠ 0 <;>
    by_cases hS : anyIncluded project.site_packages_package.contents = true <;>
    simp [resources, hA, hP, hS]

theorem stdlib_mem_resources (project : BuilderProject) :
    "stdlib" ∈ resources project := by
  simp [resources]

theorem mem_resources_site_packages (project : BuilderProject) :
    "site-packages" ∈ resources project ↔
      (project.pyqt_modules ≠ [] ∨
        ∃ c ∈ project.site_packages_package.contents, c.included = true) := by
  rw [← anyIncluded_iff]
  have hlen : project.pyqt_modules.length ≠ 0 ↔ project.pyqt_modules ≠ [] := by
    simp [List.length_eq_zero]
  by_cases hA : anyIncluded project.application_package.contents = true <;>
    by_cases hP : project.pyqt_modules.length ≠ 0 <;>
    by_cases hS : anyIncluded project.site_packages_package.contents = true <;>
    simp [resources, hA, hP, hS, ← hlen]

/-- C1: `resources()` contains `''` iff the application package has an
included entry, always contains `"stdlib"`, and contains `"site-packages"`
iff PyQt modules are requested or the site-packages package has an
included entry. -/
theorem resources_spec (project : BuilderProject) :
    ("" ∈ resources project ↔
      ∃ c ∈ project.application_package.contents, c.included = true)
    ∧ "stdlib" ∈ resources project
    ∧ ("site-packages" ∈ resources project ↔
        (project.pyqt_modules ≠ [] ∨
          ∃ c ∈ project.site_packages_package.contents, c.included = true)) :=
  ⟨mem_resources_empty project, stdlib_mem_resources project,
    mem_resources_site_packages project⟩

/-! ## POSIX path helpers (`os.path`) used by the builder -/

/-- Python's `s.endswith(suffix)` (character-wise, as in CPython). -/
def strEndsWith (s suffix : String) : Bool :=
  suffix.data.isSuffixOf s.data

/-- Python's `s[:-n]` slicing: drop the last `n` characters. -/
def strDropRight (s : String) (n : Nat) : String :=
  ⟨s.data.take (s.data.length - n)⟩

/-- Does the string start with `'/'` (i.e. `p.startswith('/')` on one
character)? -/
def startsSlash (s : String) : Bool := s.data.head? = some '/'

/-- Does the string end with `'/'` (i.e. `p.endswith('/')` on one
character)? -/
def endsSlash (s : String) : Bool := s.data.getLast? = some '/'

/-- `os.path.join(a, b)` for POSIX paths. -/
def pyJoin2 (a b : String) : String :=
  if startsSlash b then b
  else if a = "" ∨ endsSlash a then a ++ b
  else a ++ "/" ++ b

/-- `os.path.join(*parts)` for a non-empty argument list (the builder only
calls it with a non-empty `dir_stack`); folds `pyJoin2` left to right. -/
def pyJoinList : List String → String
  | [] => ""
  | a :: rest => rest.foldl pyJoin2 a

/-- `os.path.basename(p)` for POSIX paths: the part after the last slash. -/
def pyBasename (p : String) : String :=
  ⟨(p.data.reverse.takeWhile (· ≠ '/')).reverse⟩

/-- Python's `'/'.join(parts)`. -/
def joinPath : List String → String
  | [] => ""
  | [a] => a
  | a :: rest => a ++ "/" ++ joinPath rest

/-- Python's `' '.join(parts)`. -/
def joinSpace : List String → String
  | [] => ""
  | [a] => a
  | a :: rest => a ++ " " ++ joinSpace rest

/-- `os.path.split(p)` for POSIX paths: `(head, tail)` where `tail` is the
part after the last slash and `head` is the rest (up to and including the
last slash) with trailing slashes stripped unless it consists only of
slashes. -/
def pySplit (p : String) : String × String :=
  let rev := p.data.reverse
  let tailRev := rev.takeWhile (· ≠ '/')
  let headChars := (rev.drop tailRev.length).reverse
  let head :=
    if headChars.all (· = '/') then headChars
    else (headChars.reverse.dropWhile (· = '/')).reverse
  (⟨head⟩, ⟨tailRev.reverse⟩)

/-! ## The Resource Archive Writer
(`Builder._write_resource` / `Builder._write_package_contents`) -/

/-- One emitted leaf: the logical path written as a `<file>` manifest
entry, the staging destination, the source path, and whether the leaf was
frozen (`.py`/`.pyw`) or byte-copied. -/
structure Entry where
  path : String
  dstPath : String
  srcPath : String
  frozen : Bool
  deriving Repr, DecidableEq, Inhabited

/-- The destination file name for an included leaf (builder.py lines
453-459): `.py` and `.pyw` sources are renamed to a sibling `.pyf`, any
other name is kept. -/
def leafDstName (name : String) : String :=
  if strEndsWith name ".py" then strDropRight name 3 ++ ".pyf"
  else if strEndsWith name ".pyw" then strDropRight name 4 ++ ".pyf"
  else name

/-- Whether an included leaf is frozen rather than byte-copied
(builder.py lines 449-460): exactly the `.py`/`.pyw` names. -/
def leafFrozen (name : String) : Bool :=
  strEndsWith name ".py" || strEndsWith name ".pyw"

/-- `Builder._write_package_contents` (builder.py lines 418-478), as the
list of emitted leaf entries in emission order.  Mirrors the source: the
local `dir_stack` rebinding to `[]` when the joined tail is `''` or `'.'`,
the `prefix` derived from the basename of `dst_root_dir` (dropped when it
equals `'resources'`), the `.py`/`.pyw` → `.pyf` freeze renaming, and the
pruning of any content whose `included` flag is false. -/
def writePackageContents (dstRootDir srcRootDir : String) :
    List QrcContent → List String → List Entry
  | [], _ => []
  | c :: rest, dirStack =>
    let dirTail := pyJoinList dirStack
    let stack' := if dirTail = "" ∨ dirTail = "." then [] else dirStack
    let dstDir := if dirTail = "" then dstRootDir else pyJoin2 dstRootDir dirTail
    let pfx := if pyBasename dstRootDir ≠ "resources"
      then [pyBasename dstRootDir] else []
    let here : List Entry :=
      if c.included then
        match c with
        | .dir name _ sub =>
            writePackageContents dstRootDir srcRootDir sub (stack' ++ [name])
        | .file name _ =>
            [{ path := joinPath
                  (pfx ++ (if dirTail ≠ "" then stack' else [])
                    ++ [leafDstName name])
               dstPath := pyJoin2 dstDir (leafDstName name)
               srcPath := pyJoin2 (pyJoin2 srcRootDir dirTail) name
               frozen := leafFrozen name }]
      else []
    here ++ writePackageContents dstRootDir srcRootDir rest dirStack
  termination_by cs _ => sizeOf cs

/-- `Builder._write_resource` (builder.py lines 387-416): the `.qrc` file
name, the destination root, and the manifest entries for one resource. -/
structure WrittenResource where
  qrcFile : String
  dstRootDir : String
  entries : List Entry
  deriving Repr, DecidableEq, Inhabited

def writeResource (resourcesDir resource : String) (package : QrcPackage)
    (src : String) : WrittenResource :=
  let qrcFile := if resource = "" then "pyqtdeploy.qrc" else resource ++ ".qrc"
  let dstRootDir :=
    if resource = "" then resourcesDir else pyJoin2 resourcesDir resource
  let split := pySplit src
  { qrcFile := qrcFile
    dstRootDir := dstRootDir
    entries :=
      writePackageContents dstRootDir split.1 package.contents [split.2] }

/-! ## Emission lemmas -/

theorem wpc_nil (d s : String) (st : List String) :
    writePackageContents d s [] st = [] := by
  rw [writePackageContents.eq_def]

theorem wpc_cons (d s : String) (c : QrcContent) (rest : List QrcContent)
    (st : List String) :
    writePackageContents d s (c :: rest) st =
      writePackageContents d s [c] st ++ writePackageContents d s rest st := by
  conv_lhs => rw [writePackageContents.eq_def]
  conv_rhs => rw [writePackageContents.eq_def]
  dsimp only
  rw [wpc_nil, List.append_nil]

theorem wpc_cons_excluded (d s : String) (c : QrcContent)
    (rest : List QrcContent) (st : List String) (h : c.included = false) :
    writePackageContents d s (c :: rest) st =
      writePackageContents d s rest st := by
  conv_lhs => rw [writePackageContents.eq_def]
  dsimp only
  simp [h]

theorem wpc_dir_singleton (d s nm : String) (sub : List QrcContent)
    (st : List String) :
    writePackageContents d s [.dir nm true sub] st =
      writePackageContents d s sub
        ((if pyJoinList st = "" ∨ pyJoinList st = "." then [] else st)
          ++ [nm]) := by
  conv_lhs => rw [writePackageContents.eq_def]
  dsimp only
  rw [wpc_nil, List.append_nil]
  simp [QrcContent.included]

theorem wpc_file_singleton (d s nm : String) (st : List String) :
    writePackageContents d s [.file nm true] st =
      [{ path := joinPath
            ((if pyBasename d ≠ "resources" then [pyBasename d] else [])
              ++ (if pyJoinList st ≠ "" then
                    (if pyJoinList st = "" ∨ pyJoinList st = "." then []
                      else st)
                  else [])
              ++ [leafDstName nm])
         dstPath := pyJoin2
            (if pyJoinList st = "" then d else pyJoin2 d (pyJoinList st))
            (leafDstName nm)
         srcPath := pyJoin2 (pyJoin2 s (pyJoinList st)) nm
         frozen := leafFrozen nm }] := by
  conv_lhs => rw [writePackageContents.eq_def]
  dsimp only
  rw [wpc_nil, List.append_nil]
  simp [QrcContent.included]

theorem takeWhile_append_all {p : Char → Bool} (l1 l2 : List Char)
    (h : ∀ x ∈ l1, p x = true) :
    (l1 ++ l2).takeWhile p = l1 ++ l2.takeWhile p := by
  induction l1 with
  | nil => simp
  | cons a t ih =>
      have ha : p a = true := h a (by simp)
      simp only [List.cons_append, List.takeWhile_cons, ha]
      simp [ih fun x hx => h x (by simp [hx])]

/-- The basename of `os.path.join(a, r)` is `r` itself whenever `r` is a
non-empty path segment containing no slash (e.g. a resource identifier). -/
theorem pyBasename_pyJoin2 (a r : String) (h1 : r.data ≠ [])
    (h2 : ∀ c ∈ r.data, c ≠ '/') :
    pyBasename (pyJoin2 a r) = r := by
  have hss : startsSlash r = false := by
    unfold startsSlash
    cases hr : r.data with
    | nil => exact absurd hr h1
    | cons c t =>
        have : c ≠ '/' := h2 c (by simp [hr])
        simp [hr, this]
  have hall : ∀ x ∈ r.data.reverse, (x ≠ '/' : Bool) = true := by
    intro x hx
    simp only [List.mem_reverse] at hx
    simp [h2 x hx]
  unfold pyJoin2
  rw [hss]
  simp only [Bool.false_eq_true, if_false]
  by_cases hcase : a = "" ∨ endsSlash a = true
  · simp only [hcase, if_true]
    rcases hcase with hae | hslash
    · subst hae
      have : ("" ++ r) = r := by simp
      rw [this]
      unfold pyBasename
      rw [show r.data.reverse = r.data.reverse ++ [] by simp]
      rw [takeWhile_append_all _ _ (by simpa using hall)]
      simp
    · unfold pyBasename
      have hdat : (a ++ r).data = a.data ++ r.data := by
        simp [String.data_append]
      rw [hdat, List.reverse_append]
      rw [takeWhile_append_all _ _ hall]
      have haslash : a.data.reverse.takeWhile (fun x => x ≠ '/') = [] := by
        unfold endsSlash at hslash
        cases hrev : a.data.reverse with
        | nil => simp
        | cons c t =>
            have : a.data.getLast? = some c := by
              rw [← List.head?_reverse, hrev]; rfl
            rw [this] at hslash
            simp at hslash
            simp [List.takeWhile_cons, hslash]
      rw [haslash]
      simp
  · simp only [hcase, if_false]
    unfold pyBasename
    have hdat : (a ++ "/" ++ r).data = (a.data ++ ['/']) ++ r.data := by
      simp [String.data_append]
    rw [hdat, List.reverse_append]
    rw [takeWhile_append_all _ _ hall]
    have : (a.data ++ ['/']).reverse.takeWhile (fun x => x ≠ '/') = [] := by
      simp [List.reverse_append]
    rw [this]
    simp

theorem joinPath_cons (a : String) (l : List String) (h : l ≠ []) :
    joinPath (a :: l) = a ++ "/" ++ joinPath l := by
  cases l with
  | nil => exact absurd rfl h
  | cons b t => rfl

/-- Every entry emitted by the traversal has a path of the form
`prefix ++ components` where the prefix is the basename of the destination
root (dropped when that basename is `resources`). -/
theorem wpc_path_shape (d s : String) (cs : List QrcContent)
    (st : List String) :
    ∀ e ∈ writePackageContents d s cs st,
      ∃ comps, comps ≠ [] ∧
        e.path = joinPath
          ((if pyBasename d ≠ "resources" then [pyBasename d] else [])
            ++ comps) := by
  induction cs, st using writePackageContents.induct d s with
  | case1 st => rw [wpc_nil]; simp
  | case2 c rest st dirTail stack2 ihc ihrest =>
      intro e he
      rw [wpc_cons] at he
      rcases List.mem_append.mp he with h1 | h1
      · cases c with
        | dir nm inc sub =>
            cases inc with
            | false =>
                rw [wpc_cons_excluded d s _ [] st (by rfl), wpc_nil] at h1
                cases h1
            | true =>
                rw [wpc_dir_singleton] at h1
                exact ihc e h1
        | file nm inc =>
            cases inc with
            | false =>
                rw [wpc_cons_excluded d s _ [] st (by rfl), wpc_nil] at h1
                cases h1
            | true =>
                rw [wpc_file_singleton] at h1
                rcases List.mem_singleton.mp h1 with rfl
                refine ⟨(if pyJoinList st ≠ "" then
                    (if pyJoinList st = "" ∨ pyJoinList st = "." then []
                      else st) else []) ++ [leafDstName nm], by simp, ?_⟩
                simp [List.append_assoc]
      · exact ihrest e h1

/-- C2: a node whose `included` flag is false contributes zero manifest
entries — a `QrcDirectory` with arbitrary descendants (regardless of their
own flags) as much as a `QrcFile` — and the entries emitted for its
siblings are exactly those that would be emitted if the node were absent. -/
theorem excluded_node_emission (dstRootDir srcRootDir : String)
    (xs ys : List QrcContent) (dirStack : List String) (c : QrcContent)
    (h : c.included = false) :
    writePackageContents dstRootDir srcRootDir (xs ++ c :: ys) dirStack =
      writePackageContents dstRootDir srcRootDir (xs ++ ys) dirStack := by
  induction xs with
  | nil =>
      simpa using wpc_cons_excluded dstRootDir srcRootDir c ys dirStack h
  | cons x xs ih =>
      have l1 := wpc_cons dstRootDir srcRootDir x (xs ++ c :: ys) dirStack
      have l2 := wpc_cons dstRootDir srcRootDir x (xs ++ ys) dirStack
      rw [List.cons_append, l1, ih, List.cons_append, l2]

/-- Witness for C2: an excluded directory holding an included `.py` file,
between two included siblings, changes nothing. -/
theorem excluded_node_emission_witness :
    (QrcContent.dir "sub" false [QrcContent.file "x.py" true]).included
        = false
    ∧ writePackageContents "build/resources" ""
        ([QrcContent.file "a.py" true]
          ++ QrcContent.dir "sub" false [QrcContent.file "x.py" true]
            :: [QrcContent.file "b.bin" true]) [""]
      = writePackageContents "build/resources" ""
          ([QrcContent.file "a.py" true] ++ [QrcContent.file "b.bin" true])
          [""] :=
  ⟨rfl,
    excluded_node_emission "build/resources" "" [QrcContent.file "a.py" true]
      [QrcContent.file "b.bin" true] [""]
      (QrcContent.dir "sub" false [QrcContent.file "x.py" true]) rfl⟩

/-- C3: an included leaf contributes exactly one manifest entry, in front
of the entries of its later siblings; the entry is frozen exactly for
`.py`/`.pyw` names, renamed to the sibling `.pyf` name (other leaves keep
their name, i.e. are copied verbatim); for the `"stdlib"` and
`"site-packages"` resources every entry's logical path is the resource
identifier followed by a slash; and the application scenario with
`app.py` and `data.bin` yields exactly a frozen `app.pyf` and a verbatim
`data.bin`, unprefixed. -/
theorem included_leaf_emission :
    (∀ (d s nm : String) (rest : List QrcContent) (st : List String),
      ∃ e, writePackageContents d s (QrcContent.file nm true :: rest) st
          = e :: writePackageContents d s rest st
        ∧ e.frozen = leafFrozen nm
        ∧ e.path = joinPath
            ((if pyBasename d ≠ "resources" then [pyBasename d] else [])
              ++ (if pyJoinList st ≠ "" then
                    (if pyJoinList st = "" ∨ pyJoinList st = "." then []
                      else st)
                  else [])
              ++ [leafDstName nm]))
    ∧ (∀ nm : String,
        (strEndsWith nm ".py" = true →
          leafDstName nm = strDropRight nm 3 ++ ".pyf" ∧ leafFrozen nm = true)
        ∧ (strEndsWith nm ".py" = false → strEndsWith nm ".pyw" = true →
          leafDstName nm = strDropRight nm 4 ++ ".pyf" ∧ leafFrozen nm = true)
        ∧ (strEndsWith nm ".py" = false → strEndsWith nm ".pyw" = false →
          leafDstName nm = nm ∧ leafFrozen nm = false))
    ∧ (∀ (resourcesDir resource : String) (package : QrcPackage)
          (src : String),
        (resource = "stdlib" ∨ resource = "site-packages") →
        ∀ e ∈ (writeResource resourcesDir resource package src).entries,
          ∃ t, e.path = resource ++ "/" ++ t)
    ∧ (writeResource (pyJoin2 "build" "resources") ""
          ⟨"", [QrcContent.file "app.py" true, QrcContent.file "data.bin" true],
            []⟩ "").entries
        = [⟨"app.pyf", "build/resources/app.pyf", "app.py", true⟩,
           ⟨"data.bin", "build/resources/data.bin", "data.bin", false⟩] := by
  refine ⟨?_, ?_, ?_, ?_⟩
  · intro d s nm rest st
    rw [wpc_cons d s (QrcContent.file nm true) rest st, wpc_file_singleton]
    exact ⟨_, rfl, rfl, rfl⟩
  · intro nm
    refine ⟨fun h1 => ?_, fun h1 h2 => ?_, fun h1 h2 => ?_⟩ <;>
      simp [leafDstName, leafFrozen, h1] <;> simp [h2]
  · intro resourcesDir resource package src hres e he
    have hid : resource.data ≠ [] ∧ (∀ c ∈ resource.data, c ≠ '/')
        ∧ resource ≠ "" ∧ resource ≠ "resources" := by
      rcases hres with rfl | rfl <;>
        exact ⟨by decide, by decide, by decide, by decide⟩
    have hdst : (writeResource resourcesDir resource package src).dstRootDir
        = pyJoin2 resourcesDir resource := by
      simp [writeResource, hid.2.2.1]
    have hbase : pyBasename (pyJoin2 resourcesDir resource) = resource :=
      pyBasename_pyJoin2 resourcesDir resource hid.1 hid.2.1
    have hentries : (writeResource resourcesDir resource package src).entries
        = writePackageContents (pyJoin2 resourcesDir resource)
            (pySplit src).1 package.contents [(pySplit src).2] := by
      simp [writeResource, hid.2.2.1]
    rw [hentries] at he
    obtain ⟨comps, hne, hpath⟩ :=
      wpc_path_shape (pyJoin2 resourcesDir resource) (pySplit src).1
        package.contents [(pySplit src).2] e he
    rw [hbase] at hpath
    rw [if_pos hid.2.2.2] at hpath
    rw [List.singleton_append] at hpath
    exact ⟨joinPath comps, by rw [hpath, joinPath_cons _ _ hne]⟩
  · simp only [writeResource, writePackageContents.eq_def]
    rfl

/-- Witness for C3: the `"stdlib"` resource holding an included `os.py`
emits the frozen entry `stdlib/os.pyf`, whose path carries the
`stdlib/` prefix. -/
theorem included_leaf_emission_witness :
    ((⟨"stdlib/os.pyf", "build/resources/stdlib/os.pyf",
        "/usr/lib/python3.4/os.py", true⟩ : Entry)
      ∈ (writeResource "build/resources" "stdlib"
          ⟨"", [QrcContent.file "os.py" true], []⟩
          "/usr/lib/python3.4/").entries)
    ∧ ∃ t, (⟨"stdlib/os.pyf", "build/resources/stdlib/os.pyf",
        "/usr/lib/python3.4/os.py", true⟩ : Entry).path
          = "stdlib" ++ "/" ++ t := by
  have hmem : (⟨"stdlib/os.pyf", "build/resources/stdlib/os.pyf",
      "/usr/lib/python3.4/os.py", true⟩ : Entry)
      ∈ (writeResource "build/resources" "stdlib"
          ⟨"", [QrcContent.file "os.py" true], []⟩
          "/usr/lib/python3.4/").entries := by
    simp only [writeResource, writePackageContents.eq_def]
    decide
  exact ⟨hmem,
    included_leaf_emission.2.2.1 "build/resources" "stdlib"
      ⟨"", [QrcContent.file "os.py" true], []⟩ "/usr/lib/python3.4/"
      (Or.inl rfl) _ hmem⟩

/-! ## Qt metadata tables and the QT/CONFIG section of the .pro file
(`Builder._QtMetaData`, `_pyqt5_module_map`, `_pyqt4_module_map`,
`Builder._write_qmake` lines 207-243) -/

/-- `Builder._QtMetaData`: the qmake `QT` / `CONFIG` values a PyQt module
needs (`None` maps to `none`). -/
structure QtMetaData where
  qt : Option (List String)
  config : Option (List String)
  deriving Repr, DecidableEq, Inhabited

/-- `Builder._pyqt5_module_map`. -/
def pyqt5ModuleMap : String → Option QtMetaData
  | "QAxContainer" => some ⟨some ["axcontainer"], none⟩
  | "QtBluetooth" => some ⟨some ["bluetooth"], none⟩
  | "QtCore" => some ⟨some ["-gui"], none⟩
  | "QtDBus" => some ⟨some ["dbus", "-gui"], none⟩
  | "QtDesigner" => some ⟨some ["designer"], none⟩
  | "QtHelp" => some ⟨some ["help"], none⟩
  | "QtMacExtras" => some ⟨some ["macextras"], none⟩
  | "QtMultimedia" => some ⟨some ["multimedia"], none⟩
  | "QtMultimediaWidgets" =>
      some ⟨some ["multimediawidgets", "multimedia"], none⟩
  | "QtNetwork" => some ⟨some ["network", "-gui"], none⟩
  | "QtOpenGL" => some ⟨some ["opengl"], none⟩
  | "QtPositioning" => some ⟨some ["positioning"], none⟩
  | "QtPrintSupport" => some ⟨some ["printsupport"], none⟩
  | "QtQml" => some ⟨some ["qml"], none⟩
  | "QtQuick" => some ⟨some ["quick"], none⟩
  | "QtSensors" => some ⟨some ["sensors"], none⟩
  | "QtSerialPort" => some ⟨some ["serialport"], none⟩
  | "QtSql" => some ⟨some ["sql", "widgets"], none⟩
  | "QtSvg" => some ⟨some ["svg"], none⟩
  | "QtTest" => some ⟨some ["testlib", "widgets"], none⟩
  | "QtWebKit" => some ⟨some ["webkit", "network"], none⟩
  | "QtWebKitWidgets" => some ⟨some ["webkitwidgets"], none⟩
  | "QtWidgets" => some ⟨some ["widgets"], none⟩
  | "QtWinExtras" => some ⟨some ["winextras", "widgets"], none⟩
  | "QtX11Extras" => some ⟨some ["x11extras"], none⟩
  | "QtXmlPatterns" => some ⟨some ["xmlpatterns", "-gui", "network"], none⟩
  | "QtChart" => some ⟨none, some ["qtcommercialchart"]⟩
  | "QtDataVisualization" => some ⟨some ["datavisualization"], none⟩
  | "Qsci" => some ⟨none, some ["qscintilla2"]⟩
  | _ => none

/-- `Builder._pyqt4_module_map`. -/
def pyqt4ModuleMap : String → Option QtMetaData
  | "QAxContainer" => some ⟨none, some ["qaxcontainer"]⟩
  | "QtCore" => some ⟨some ["-gui"], none⟩
  | "QtDBus" => some ⟨some ["dbus", "-gui"], none⟩
  | "QtDeclarative" => some ⟨some ["declarative", "network"], none⟩
  | "QtDesigner" => some ⟨none, some ["designer"]⟩
  | "QtHelp" => some ⟨none, some ["help"]⟩
  | "QtMultimedia" => some ⟨some ["multimedia"], none⟩
  | "QtNetwork" => some ⟨some ["network", "-gui"], none⟩
  | "QtOpenGL" => some ⟨some ["opengl"], none⟩
  | "QtScript" => some ⟨some ["script", "-gui"], none⟩
  | "QtScriptTools" => some ⟨some ["scripttools", "script"], none⟩
  | "QtSql" => some ⟨some ["sql"], none⟩
  | "QtSvg" => some ⟨some ["svg"], none⟩
  | "QtTest" => some ⟨some ["testlib"], none⟩
  | "QtWebKit" => some ⟨some ["webkit", "network"], none⟩
  | "QtXml" => some ⟨some ["xml", "-gui"], none⟩
  | "QtXmlPatterns" => some ⟨some ["xmlpatterns", "-gui", "network"], none⟩
  | "phonon" => some ⟨some ["phonon"], none⟩
  | "QtChart" => some ⟨none, some ["qtcommercialchart"]⟩
  | "Qsci" => some ⟨none, some ["qscintilla2"]⟩
  | _ => none

/-- The module map selected by `project.application_is_pyqt5`. -/
def moduleMap (isPyqt5 : Bool) : String → Option QtMetaData :=
  if isPyqt5 then pyqt5ModuleMap else pyqt4ModuleMap

/-- State of the loop at builder.py lines 210-234: `no_gui`, `qmake_qt`,
`qmake_config`. -/
structure QtState where
  no_gui : Bool
  qmake_qt : List String
  qmake_config : List String
  deriving Repr, DecidableEq, Inhabited

/-- The inner loop over `metadata.qt` (builder.py lines 221-226):
accumulates `needs_gui` and `qmake_qt`. -/
def qtTokensStep (acc : Bool × List String) (tok : String) :
    Bool × List String :=
  if tok = "-gui" then (false, acc.2)
  else if tok ∈ acc.2 then acc
  else (acc.1, acc.2 ++ [tok])

/-- The body of the `for pyqt_m in project.pyqt_modules` loop
(builder.py lines 216-234). -/
def qtModuleStep (isPyqt5 : Bool) (st : QtState) (pyqt_m : String) :
    QtState :=
  let metadata := (moduleMap isPyqt5 pyqt_m).getD ⟨none, none⟩
  let qtAcc :=
    match metadata.qt with
    | none => (true, st.qmake_qt)
    | some toks => toks.foldl qtTokensStep (true, st.qmake_qt)
  let config :=
    match metadata.config with
    | none => st.qmake_config
    | some toks =>
        toks.foldl (fun acc c => if c ∈ acc then acc else acc ++ [c])
          st.qmake_config
  { no_gui := if qtAcc.1 then false else st.no_gui
    qmake_qt := qtAcc.2
    qmake_config := config }

/-- The final loop state for a module list (initial state
`no_gui = True`, empty accumulators). -/
def qtStateFor (isPyqt5 : Bool) (modules : List String) : QtState :=
  modules.foldl (qtModuleStep isPyqt5) ⟨true, [], []⟩

/-- The `QT`-configuration lines of the generated `.pro` file
(builder.py lines 236-243). -/
def qtSectionLines (isPyqt5 : Bool) (modules : List String) : List String :=
  (if (qtStateFor isPyqt5 modules).no_gui then ["QT -= gui"] else [])
    ++ (if (qtStateFor isPyqt5 modules).qmake_qt.length ≠ 0 then
          ["QT += " ++ joinSpace (qtStateFor isPyqt5 modules).qmake_qt]
        else [])
    ++ (if (qtStateFor isPyqt5 modules).qmake_config.length ≠ 0 then
          ["CONFIG += " ++ joinSpace (qtStateFor isPyqt5 modules).qmake_config]
        else [])

/-- Does the metadata table entry for a module opt out of the default GUI
subsystem, i.e. does its `qt` list contain `'-gui'`?  A module absent from
the table (or with no `qt` list) does not opt out. -/
def moduleOptsOutGui (isPyqt5 : Bool) (m : String) : Bool :=
  match moduleMap isPyqt5 m with
  | some md =>
      match md.qt with
      | some toks => toks.contains "-gui"
      | none => false
  | none => false

theorem qtTokensStep_fst (toks : List String) (b : Bool) (l : List String) :
    (toks.foldl qtTokensStep (b, l)).1 = (b && !toks.contains "-gui") := by
  induction toks generalizing b l with
  | nil => simp
  | cons t ts ih =>
      by_cases ht : t = "-gui"
      · subst ht
        simp [List.foldl_cons, qtTokensStep, ih]
      · by_cases hl : t ∈ l <;>
          simp [List.foldl_cons, qtTokensStep, ht, hl, ih, Ne.symm ht]

theorem qtModuleStep_no_gui (isPyqt5 : Bool) (st : QtState) (m : String) :
    (qtModuleStep isPyqt5 st m).no_gui
      = (st.no_gui && moduleOptsOutGui isPyqt5 m) := by
  unfold qtModuleStep moduleOptsOutGui
  cases hmd : moduleMap isPyqt5 m with
  | none => simp
  | some md =>
      cases hqt : md.qt with
      | none => simp [hqt]
      | some toks =>
          simp only [Option.getD_some, hqt, qtTokensStep_fst]
          by_cases hc : toks.contains "-gui" = true <;>
            simp [hc, Bool.and_comm]

theorem qtStateFor_no_gui (isPyqt5 : Bool) (modules : List String) :
    (qtStateFor isPyqt5 modules).no_gui
      = modules.all (moduleOptsOutGui isPyqt5) := by
  have general : ∀ (ms : List String) (st : QtState),
      (ms.foldl (qtModuleStep isPyqt5) st).no_gui
        = (st.no_gui && ms.all (moduleOptsOutGui isPyqt5)) := by
    intro ms
    induction ms with
    | nil => simp
    | cons m ms ih =>
        intro st
        simp [List.foldl_cons, ih, qtModuleStep_no_gui, Bool.and_assoc]
  simpa [qtStateFor] using general modules ⟨true, [], []⟩

theorem moduleOptsOutGui_iff (isPyqt5 : Bool) (m : String) :
    moduleOptsOutGui isPyqt5 m = true ↔
      ∃ md toks, moduleMap isPyqt5 m = some md ∧ md.qt = some toks ∧
        "-gui" ∈ toks := by
  unfold moduleOptsOutGui
  cases hmd : moduleMap isPyqt5 m with
  | none => simp
  | some md =>
      cases hqt : md.qt with
      | none => simp [hqt]
      | some toks => simp [hqt]

theorem qt_gui_line_ne_qt_plus (s : String) :
    ("QT += " ++ s) ≠ "QT -= gui" := by
  intro h
  have := congrArg String.data h
  simp [String.data_append] at this

theorem qt_gui_line_ne_config (s : String) :
    ("CONFIG += " ++ s) ≠ "QT -= gui" := by
  intro h
  have := congrArg String.data h
  simp [String.data_append] at this

/-- C4: the generated `.pro` file contains the line `QT -= gui` iff every
requested PyQt module's metadata (in the map selected by
`application_is_pyqt5`) has a `qt` list containing the `'-gui'` opt-out
token; one module that does not opt out — including a module absent from
the table — keeps GUI requested. -/
theorem qt_gui_suppression (isPyqt5 : Bool) (modules : List String) :
    "QT -= gui" ∈ qtSectionLines isPyqt5 modules ↔
      ∀ m ∈ modules, ∃ md toks,
        moduleMap isPyqt5 m = some md ∧ md.qt = some toks ∧
          "-gui" ∈ toks := by
  have key : "QT -= gui" ∈ qtSectionLines isPyqt5 modules ↔
      (qtStateFor isPyqt5 modules).no_gui = true := by
    unfold qtSectionLines
    constructor
    · intro h
      by_contra hng
      simp only [Bool.not_eq_true] at hng
      rw [hng] at h
      simp only [Bool.false_eq_true, if_false, List.nil_append] at h
      rcases List.mem_append.mp h with h1 | h1 <;>
        first
        | (by_cases hq : (qtStateFor isPyqt5 modules).qmake_qt.length ≠ 0 <;>
            simp [hq] at h1
           exact qt_gui_line_ne_qt_plus _ h1.symm)
        | (by_cases hc :
              (qtStateFor isPyqt5 modules).qmake_config.length ≠ 0 <;>
            simp [hc] at h1
           exact qt_gui_line_ne_config _ h1.symm)
    · intro h
      rw [h]
      simp
  rw [key, qtStateFor_no_gui, List.all_eq_true]
  constructor
  · intro h m hm
    exact (moduleOptsOutGui_iff isPyqt5 m).mp (h m hm)
  · intro h m hm
    exact (moduleOptsOutGui_iff isPyqt5 m).mpr (h m hm)

/-- Witness for C4: with `QtCore` and `QtNetwork` requested under PyQt5
(both opting out of GUI) the descriptor carries `QT -= gui`. -/
theorem qt_gui_suppression_witness :
    "QT -= gui" ∈ qtSectionLines true ["QtCore", "QtNetwork"] :=
  (qt_gui_suppression true ["QtCore", "QtNetwork"]).mpr
    (by
      intro m hm
      fin_cases hm
      · exact ⟨⟨some ["-gui"], none⟩, ["-gui"], rfl, rfl, by decide⟩
      · exact ⟨⟨some ["network", "-gui"], none⟩, ["network", "-gui"], rfl,
          rfl, by decide⟩)

/-! ## Copies (`QrcFile.copy` / `QrcDirectory.copy` / `QrcPackage.copy`),
the PyQt package injection performed by `Builder.build`, and the bootstrap
script -/

mutual

/-- `QrcFile.copy` / `QrcDirectory.copy` (project.py lines 526-549):
rebuild the node, recursively copying a directory's contents. -/
def QrcContent.copy : QrcContent → QrcContent
  | .file n i => .file n i
  | .dir n i cs => .dir n i (QrcContent.copyList cs)

/-- The `[content.copy() for content in self.contents]` comprehension. -/
def QrcContent.copyList : List QrcContent → List QrcContent
  | [] => []
  | c :: rest => QrcContent.copy c :: QrcContent.copyList rest

end

/-- `QrcPackage.copy` (project.py lines 505-514). -/
def QrcPackage.copy (p : QrcPackage) : QrcPackage :=
  { name := p.name
    contents := QrcContent.copyList p.contents
    exclusions := p.exclusions }

/-- The site-packages package actually given to `_write_resource` by
`Builder.build` (builder.py lines 145-168): a copy of the project's
site-packages package, extended — when PyQt modules are requested — with a
synthetic `PyQt5`/`PyQt4` directory holding `__init__.py` and, when
`uic` is requested, the scanned uic tree (passed in as `uicDir`: it is
read from the filesystem). -/
def sitePackagesForBuild (project : BuilderProject) (uicDir : QrcContent) :
    QrcPackage :=
  let copy := project.site_packages_package.copy
  if project.pyqt_modules.length ≠ 0 then
    let pyqt_dir := if project.application_is_pyqt5 then "PyQt5" else "PyQt4"
    let pyqt_pkg_dir := QrcContent.dir pyqt_dir true
      ([QrcContent.file "__init__.py" true]
        ++ (if "uic" ∈ project.pyqt_modules then [uicDir] else []))
    { copy with contents := copy.contents ++ [pyqt_pkg_dir] }
  else copy

/-- The resource-writing loop of `Builder.build` (builder.py lines
134-168): one `_write_resource` call per element of `resources()`, in
order, tagged with the resource identifier.  `appSrc` stands for
`project.absolute_path(package.name)` (resolved against the process
environment). -/
def buildResourceWrites (project : BuilderProject)
    (resourcesDir appSrc : String) (uicDir : QrcContent) :
    List (String × WrittenResource) :=
  (resources project).map (fun resource =>
    if resource = "" then
      (resource,
        writeResource resourcesDir resource project.application_package
          appSrc)
    else if resource = "stdlib" then
      (resource,
        writeResource resourcesDir resource project.stdlib_package
          (pyJoin2 project.python_target_stdlib_dir ""))
    else
      (resource,
        writeResource resourcesDir resource
          (sitePackagesForBuild project uicDir)
          (pyJoin2 (pyJoin2 project.python_target_stdlib_dir "site-packages")
            "")))

/-- Python's `', '.join(parts)`. -/
def joinCommaSpace : List String → String
  | [] => ""
  | [a] => a
  | a :: rest => a ++ ", " ++ joinCommaSpace rest

/-- The `sys.path` list assigned by the generated `__bootstrap__.py`
(builder.py lines 338-345): one mount point `:/<identifier>` per element
of `resources()`, in order. -/
def bootstrapSysPath (project : BuilderProject) : List String :=
  (resources project).map (fun resource => ":/" ++ resource)

/-- The text of the generated `__bootstrap__.py`. -/
def bootstrapScript (project : BuilderProject) : String :=
  "import sys\nimport pyqtdeploy\n\nsys.path = ["
    ++ joinCommaSpace
        ((resources project).map (fun resource => "':/" ++ resource ++ "'"))
    ++ "]\nsys.path_hooks = [pyqtdeploy.qrcimporter]\n"

/-- The `sys.path_hooks` list assigned by the generated bootstrap script:
the single `pyqtdeploy.qrcimporter` hook type. -/
def bootstrapPathHooks : List String := ["pyqtdeploy.qrcimporter"]

/-- C5: the bootstrap script's `sys.path` holds exactly the mount points
`:/<identifier>` of the resource groups written by `build()`, in the
order `build()` writes them (both lists come from `resources()`), and
`sys.path_hooks` is set to exactly one import-hook type. -/
theorem bootstrap_path_matches_build (project : BuilderProject)
    (resourcesDir appSrc : String) (uicDir : QrcContent) :
    bootstrapSysPath project
      = ((buildResourceWrites project resourcesDir appSrc uicDir).map
          Prod.fst).map (fun resource => ":/" ++ resource)
    ∧ ((buildResourceWrites project resourcesDir appSrc uicDir).map
        Prod.fst) = resources project
    ∧ bootstrapPathHooks.length = 1 := by
  have hfst : ((buildResourceWrites project resourcesDir appSrc uicDir).map
      Prod.fst) = resources project := by
    unfold buildResourceWrites
    rw [List.map_map]
    have point : ∀ r : String,
        (Prod.fst ∘ fun resource =>
          if resource = "" then
            (resource,
              writeResource resourcesDir resource project.application_package
                appSrc)
          else if resource = "stdlib" then
            (resource,
              writeResource resourcesDir resource project.stdlib_package
                (pyJoin2 project.python_target_stdlib_dir ""))
          else
            (resource,
              writeResource resourcesDir resource
                (sitePackagesForBuild project uicDir)
                (pyJoin2
                  (pyJoin2 project.python_target_stdlib_dir "site-packages")
                  ""))) r = r := by
      intro r
      by_cases h1 : r = "" <;> by_cases h2 : r = "stdlib" <;>
        simp [h1, h2]
    calc (resources project).map _
        = (resources project).map id := List.map_congr_left
            (fun r _ => point r)
      _ = resources project := List.map_id _
  exact ⟨by rw [hfst]; rfl, hfst, rfl⟩

mutual

theorem QrcContent.copy_eq : ∀ c : QrcContent, QrcContent.copy c = c
  | .file _ _ => by rw [QrcContent.copy]
  | .dir n i cs => by rw [QrcContent.copy, QrcContent.copyList_eq cs]

theorem QrcContent.copyList_eq :
    ∀ cs : List QrcContent, QrcContent.copyList cs = cs
  | [] => by rw [QrcContent.copyList]
  | c :: rest => by
      rw [QrcContent.copyList, QrcContent.copy_eq c,
        QrcContent.copyList_eq rest]

end

theorem package_copy_eq (p : QrcPackage) : p.copy = p := by
  unfold QrcPackage.copy
  rw [QrcContent.copyList_eq]

/-- C10: `copy()` rebuilds a structurally equal package (same name, same
exclusions, recursively equal contents in order), and the synthetic PyQt
entry `build()` appends to the copied site-packages package extends the
copy only: the package handed to `_write_resource` is the original
site-packages contents plus the one synthetic directory (or the plain
copy when no PyQt module is requested), the project's own tree being a
distinct, unmodified value. -/
theorem qrc_copy_deep (p : QrcPackage) (project : BuilderProject)
    (uicDir : QrcContent) :
    p.copy = p
    ∧ (project.pyqt_modules.length ≠ 0 →
        (sitePackagesForBuild project uicDir).contents
          = project.site_packages_package.contents
            ++ [QrcContent.dir
                (if project.application_is_pyqt5 then "PyQt5" else "PyQt4")
                true
                ([QrcContent.file "__init__.py" true]
                  ++ (if "uic" ∈ project.pyqt_modules then [uicDir]
                      else []))])
    ∧ (project.pyqt_modules.length = 0 →
        sitePackagesForBuild project uicDir
          = project.site_packages_package) := by
  refine ⟨package_copy_eq p, ?_, ?_⟩
  · intro h
    unfold sitePackagesForBuild
    rw [package_copy_eq]
    simp [h]
  · intro h
    unfold sitePackagesForBuild
    rw [package_copy_eq]
    simp [h]

/-- Witness for C10: a concrete PyQt5 project with one site-packages
entry and `QtCore` requested. -/
theorem qrc_copy_deep_witness :
    ((⟨"six", [QrcContent.file "six.py" true], []⟩ : QrcPackage).copy
      = ⟨"six", [QrcContent.file "six.py" true], []⟩)
    ∧ ((3 : Nat) ≠ 0 → True)
    ∧ ((sitePackagesForBuild
        { application_package := QrcPackage.init
          stdlib_package := QrcPackage.init
          site_packages_package := ⟨"sp", [QrcContent.file "six.py" true], []⟩
          pyqt_modules := ["QtCore"]
          application_is_pyqt5 := true
          extension_modules := []
          python_target_include_dir := ""
          python_target_library := ""
          python_target_stdlib_dir := "/tgt" }
        (QrcContent.dir "uic" true [])).contents
      = [QrcContent.file "six.py" true,
         QrcContent.dir "PyQt5" true [QrcContent.file "__init__.py" true]]) := by
  refine ⟨?_, fun _ => trivial, ?_⟩
  · exact (qrc_copy_deep ⟨"six", [QrcContent.file "six.py" true], []⟩
      default default).1
  · have h := (qrc_copy_deep ⟨"six", [QrcContent.file "six.py" true], []⟩
      { application_package := QrcPackage.init
        stdlib_package := QrcPackage.init
        site_packages_package := ⟨"sp", [QrcContent.file "six.py" true], []⟩
        pyqt_modules := ["QtCore"]
        application_is_pyqt5 := true
        extension_modules := []
        python_target_include_dir := ""
        python_target_library := ""
        python_target_stdlib_dir := "/tgt" }
      (QrcContent.dir "uic" true [])).2.1 (by decide)
    rw [h]
    decide

/-! ## Extension-module linkage (`Builder._write_qmake` lines 245-278) -/

/-- Python's `m.split('.')[-1]`: the part after the last dot. -/
def lastDotComponent (m : String) : String :=
  ⟨(m.data.reverse.takeWhile (· ≠ '.')).reverse⟩

/-- `extensions[k] = v` on a dict modelled as an ordered association
list: an existing key keeps its position and gets the new value, a new
key is appended. -/
def assocUpdate (l : List (String × String)) (k v : String) :
    List (String × String) :=
  if l.any (·.1 = k) then
    l.map (fun p => if p.1 = k then (k, v) else p)
  else l ++ [(k, v)]

/-- The loop of builder.py lines 248-250: the `extensions` dict after
the declared extension modules (empty names skipped). -/
def extDict (project : BuilderProject) : List (String × String) :=
  project.extension_modules.foldl
    (fun acc em => if em.1 ≠ "" then assocUpdate acc em.1 em.2 else acc) []

/-- The `extensions` dict of builder.py lines 246-262.  `spa` stands for
`project.absolute_path(project.python_target_stdlib_dir)` (resolved
against the process environment). -/
def qmakeExtensions (project : BuilderProject) (spa : String) :
    List (String × String) :=
  if project.pyqt_modules.length > 0 then
    assocUpdate
      (project.pyqt_modules.foldl
        (fun acc pyqt =>
          if pyqt ≠ "uic" then
            assocUpdate acc
              ((if project.application_is_pyqt5 then "PyQt5" else "PyQt4")
                ++ "." ++ pyqt)
              ((spa ++ "/site-packages") ++ "/"
                ++ (if project.application_is_pyqt5 then "PyQt5"
                    else "PyQt4"))
          else acc)
        (extDict project))
      "sip" (spa ++ "/site-packages")
  else extDict project

/-- The `mod_dirs` loop of builder.py lines 268-271: unique module
directories in first-occurrence order. -/
def dedupDirs (dirs : List String) : List String :=
  dirs.foldl (fun acc d => if d ∈ acc then acc else acc ++ [d]) []

def modDirsOf (project : BuilderProject) (spa : String) : List String :=
  dedupDirs ((qmakeExtensions project spa).map Prod.snd)

def modDirFlagsOf (project : BuilderProject) (spa : String) : List String :=
  (modDirsOf project spa).map (fun md => "-L" ++ md)

def modFlagsOf (project : BuilderProject) (spa : String) : List String :=
  ((qmakeExtensions project spa).map Prod.fst).map
    (fun m => "-l" ++ lastDotComponent m)

/-- The `LIBS += ...` line for extension modules (builder.py lines
264-278), written only when the dict is non-empty. -/
def libsLine (project : BuilderProject) (spa : String) : Option String :=
  if (qmakeExtensions project spa).length > 0 then
    some ("LIBS += " ++ joinSpace (modDirFlagsOf project spa) ++ " "
      ++ joinSpace (modFlagsOf project spa))
  else none

/-- The project of the C7 scenario: one extension module `foo` at path
`/x/libfoo`, no PyQt modules. -/
def extFooProject : BuilderProject :=
  { application_package := QrcPackage.init
    stdlib_package := QrcPackage.init
    site_packages_package := QrcPackage.init
    pyqt_modules := []
    application_is_pyqt5 := true
    extension_modules := [("foo", "/x/libfoo")]
    python_target_include_dir := ""
    python_target_library := ""
    python_target_stdlib_dir := "" }

theorem assocUpdate_self_mem (l : List (String × String)) (k v : String) :
    (k, v) ∈ assocUpdate l k v := by
  unfold assocUpdate
  by_cases h : l.any (·.1 = k) = true
  · simp only [h, if_true]
    rcases List.any_eq_true.mp h with ⟨p, hp, hpk⟩
    simp only [decide_eq_true_eq] at hpk
    exact List.mem_map.mpr ⟨p, hp, by simp [hpk]⟩
  · simp [h]

theorem assocUpdate_keys_mono (l : List (String × String)) (k v k' : String)
    (h : k' ∈ l.map Prod.fst) :
    k' ∈ (assocUpdate l k v).map Prod.fst := by
  unfold assocUpdate
  by_cases hc : l.any (·.1 = k) = true
  · simp only [hc, if_true, List.map_map]
    rcases List.mem_map.mp h with ⟨p, hp, hpk⟩
    refine List.mem_map.mpr ⟨p, hp, ?_⟩
    by_cases hk : p.1 = k <;> simp [Function.comp, hk, ← hpk]
  · rw [Bool.not_eq_true] at hc
    simp only [hc, Bool.false_eq_true, if_false, List.map_append]
    exact List.mem_append_left _ h

theorem foldl_ext_keys_mono (ems : List (String × String))
    (acc : List (String × String)) (k' : String)
    (h : k' ∈ acc.map Prod.fst) :
    k' ∈ ((ems.foldl (fun acc em =>
        if em.1 ≠ "" then assocUpdate acc em.1 em.2 else acc) acc).map
          Prod.fst) := by
  induction ems generalizing acc with
  | nil => simpa using h
  | cons em ems ih =>
      simp only [List.foldl_cons]
      by_cases he : em.1 ≠ ""
      · rw [if_pos he]
        exact ih _ (assocUpdate_keys_mono acc em.1 em.2 k' h)
      · rw [if_neg he]
        exact ih _ h

theorem foldl_pyqt_keys_mono (ms : List String) (pv sp : String)
    (acc : List (String × String)) (k' : String)
    (h : k' ∈ acc.map Prod.fst) :
    k' ∈ ((ms.foldl (fun acc pyqt =>
        if pyqt ≠ "uic" then assocUpdate acc (pv ++ "." ++ pyqt) sp
        else acc) acc).map Prod.fst) := by
  induction ms generalizing acc with
  | nil => simpa using h
  | cons m ms ih =>
      simp only [List.foldl_cons]
      by_cases hm : m ≠ "uic"
      · rw [if_pos hm]
        exact ih _ (assocUpdate_keys_mono acc _ _ k' h)
      · rw [if_neg hm]
        exact ih _ h

theorem ext_module_key_present (ems : List (String × String))
    (acc : List (String × String)) (em : String × String)
    (hmem : em ∈ ems) (hne : em.1 ≠ "") :
    em.1 ∈ ((ems.foldl (fun acc e =>
        if e.1 ≠ "" then assocUpdate acc e.1 e.2 else acc) acc).map
          Prod.fst) := by
  induction ems generalizing acc with
  | nil => cases hmem
  | cons e ems ih =>
      rcases List.mem_cons.mp hmem with rfl | hmem
      · simp only [List.foldl_cons]
        rw [if_pos hne]
        exact foldl_ext_keys_mono ems _ em.1
          (List.mem_map.mpr ⟨(em.1, em.2), assocUpdate_self_mem acc em.1 em.2,
            rfl⟩)
      · simp only [List.foldl_cons]
        by_cases he : e.1 ≠ ""
        · rw [if_pos he]
          exact ih _ hmem
        · rw [if_neg he]
          exact ih _ hmem

theorem dedupDirs_spec (dirs : List String) :
    (dedupDirs dirs).Nodup ∧ ∀ d, d ∈ dedupDirs dirs ↔ d ∈ dirs := by
  have general : ∀ (l : List String) (acc : List String), acc.Nodup →
      (l.foldl (fun acc d => if d ∈ acc then acc else acc ++ [d]) acc).Nodup
      ∧ ∀ d, d ∈ l.foldl (fun acc d => if d ∈ acc then acc else acc ++ [d])
          acc ↔ (d ∈ acc ∨ d ∈ l) := by
    intro l
    induction l with
    | nil => intro acc hacc; simpa using hacc
    | cons x xs ih =>
        intro acc hacc
        simp only [List.foldl_cons]
        by_cases hx : x ∈ acc
        · simp only [hx, if_true]
          obtain ⟨h1, h2⟩ := ih acc hacc
          refine ⟨h1, fun d => ?_⟩
          rw [h2 d]
          constructor
          · rintro (hd | hd)
            · exact Or.inl hd
            · exact Or.inr (List.mem_cons_of_mem _ hd)
          · rintro (hd | hd)
            · exact Or.inl hd
            · rcases List.mem_cons.mp hd with rfl | hd
              · exact Or.inl hx
              · exact Or.inr hd
        · simp only [hx, if_false]
          have hnodup : (acc ++ [x]).Nodup := by
            simp [List.nodup_append, hacc, hx]
          obtain ⟨h1, h2⟩ := ih (acc ++ [x]) hnodup
          refine ⟨h1, fun d => ?_⟩
          rw [h2 d]
          simp only [List.mem_append, List.mem_singleton, List.mem_cons]
          tauto
  have h := general dirs [] (by simp)
  exact ⟨h.1, fun d => by simpa using h.2 d⟩

/-- Counterexample to C7 as stated: for the module `foo` declared at path
`/x/libfoo`, the single emitted library search-directory flag is
`-L/x/libfoo` — the path exactly as declared — not a flag for the parent
directory `/x`. -/
theorem libs_dir_flag_counterexample :
    modDirFlagsOf extFooProject "/abs" = ["-L/x/libfoo"]
    ∧ "-L/x" ∉ modDirFlagsOf extFooProject "/abs"
    ∧ libsLine extFooProject "/abs" = some "LIBS += -L/x/libfoo -lfoo" := by
  refine ⟨rfl, ?_, rfl⟩
  decide

/-- C7 (amended): declaring `foo` at `/x/libfoo` yields the LIBS line
`LIBS += -L/x/libfoo -lfoo` — exactly one `-L` flag carrying the declared
path string verbatim and one `-l` flag from the last dotted component of
the module name; in general every declared extension module with a
non-empty name contributes its `-l` flag, library search directories are
deduplicated in first-occurrence order, and any requested PyQt capability
adds the implicit `sip` entry (directory `<site-packages>`, flag
`-lsip`). -/
theorem libs_line_spec :
    (∀ spa, libsLine extFooProject spa = some "LIBS += -L/x/libfoo -lfoo")
    ∧ (∀ (project : BuilderProject) (spa : String) (em : String × String),
        em ∈ project.extension_modules → em.1 ≠ "" →
        ("-l" ++ lastDotComponent em.1) ∈ modFlagsOf project spa)
    ∧ (∀ (project : BuilderProject) (spa : String),
        (modDirsOf project spa).Nodup
        ∧ ∀ d, d ∈ modDirsOf project spa ↔
            d ∈ (qmakeExtensions project spa).map Prod.snd)
    ∧ (∀ (project : BuilderProject) (spa : String),
        project.pyqt_modules.length > 0 →
        ("sip", spa ++ "/site-packages") ∈ qmakeExtensions project spa
        ∧ "-lsip" ∈ modFlagsOf project spa) := by
  refine ⟨fun spa => rfl, ?_, ?_, ?_⟩
  · intro project spa em hmem hne
    have hkey : em.1 ∈ (qmakeExtensions project spa).map Prod.fst := by
      unfold qmakeExtensions
      by_cases hp : project.pyqt_modules.length > 0
      · rw [if_pos hp]
        apply assocUpdate_keys_mono
        apply foldl_pyqt_keys_mono
        exact ext_module_key_present project.extension_modules [] em hmem hne
      · rw [if_neg hp]
        exact ext_module_key_present project.extension_modules [] em hmem hne
    exact List.mem_map.mpr ⟨em.1, hkey, rfl⟩
  · intro project spa
    obtain ⟨h1, h2⟩ := dedupDirs_spec
      ((qmakeExtensions project spa).map Prod.snd)
    exact ⟨h1, h2⟩
  · intro project spa hp
    have hsip : ("sip", spa ++ "/site-packages")
        ∈ qmakeExtensions project spa := by
      unfold qmakeExtensions
      rw [if_pos hp]
      exact assocUpdate_self_mem _ _ _
    refine ⟨hsip, ?_⟩
    have : ("sip" : String) ∈ (qmakeExtensions project spa).map Prod.fst :=
      List.mem_map.mpr ⟨_, hsip, rfl⟩
    exact List.mem_map.mpr ⟨"sip", this, rfl⟩

/-- Witness for C7: the `sip` linkage appears for a concrete PyQt5
project requesting `QtCore`. -/
theorem libs_line_spec_witness :
    ("QtCore", "/x/libQtCore") ∈
        ({ extFooProject with
            extension_modules := [("QtCore", "/x/libQtCore")] }
          : BuilderProject).extension_modules
    ∧ ("QtCore" : String) ≠ ""
    ∧ ("-l" ++ lastDotComponent "QtCore") ∈ modFlagsOf
        { extFooProject with
          extension_modules := [("QtCore", "/x/libQtCore")] } "/abs" :=
  ⟨by decide, by decide,
    libs_line_spec.2.1
      { extFooProject with
        extension_modules := [("QtCore", "/x/libQtCore")] }
      "/abs" ("QtCore", "/x/libQtCore") (by decide) (by decide)⟩

/-! ## The Freeze Engine (`Builder._freeze`) and the error discipline of
`Builder.build` -/

/-- The user-facing packaging failure (`UserException`, imported by
builder.py from `user_exception.py`, which is not part of the sources).
Modelled from the spec: a short summary plus an optional detailed
diagnostic (empty when absent). -/
structure UserException where
  summary : String
  detail : String
  deriving Repr, DecidableEq, Inhabited

/-- The observable outcome of one `subprocess.check_output` call: the
child's exit code and its captured stdout+stderr text. -/
structure SubprocessResult where
  exitCode : Nat
  output : String
  deriving Repr, DecidableEq, Inhabited

/-- The argument list built by `Builder._freeze` (builder.py lines
562-569). -/
def freezeArgs (hostInterpreter freeze : String) (main asData : Bool)
    (output pyFilename : String) : List String :=
  [hostInterpreter, freeze]
    ++ (if main then ["--main"] else [])
    ++ [(if asData then "--as-data" else "--as-c"), output, pyFilename]

/-- `Builder._freeze` (builder.py lines 571-579): `check_output` raises
`CalledProcessError` exactly when the child exits non-zero, and only that
exception is converted to a `UserException` naming the source file with
the captured output as detail; a zero exit returns silently whatever was
captured. -/
def runFreeze (run : SubprocessResult) (pyFilename : String) :
    Except UserException Unit :=
  if run.exitCode ≠ 0 then
    .error ⟨"Unable to freeze " ++ pyFilename ++ ".", run.output⟩
  else .ok ()

/-- Counterexample to C8 as stated: a freeze subprocess that exits 0
while producing diagnostic output is treated as success — the captured
diagnostics alone never raise. -/
theorem freeze_diagnostic_ignored :
    runFreeze ⟨0, "warning: deprecated construct"⟩ "f.py" = .ok ()
    ∧ ("warning: deprecated construct" : String) ≠ "" := by
  exact ⟨rfl, by decide⟩

/-- C8 (amended): `_freeze` raises a user-facing packaging failure naming
the offending source file if and only if the external freeze subprocess
exits non-zero; the captured diagnostic output is attached as the
failure's detail, and a zero exit signals success regardless of any
captured diagnostic output (which is logged at most, never raised). -/
theorem freeze_failure_iff (run : SubprocessResult) (pyFilename : String) :
    ((∃ e, runFreeze run pyFilename = .error e
        ∧ e.summary = "Unable to freeze " ++ pyFilename ++ "."
        ∧ e.detail = run.output) ↔ run.exitCode ≠ 0)
    ∧ (runFreeze run pyFilename = .ok () ↔ run.exitCode = 0) := by
  constructor
  · constructor
    · rintro ⟨e, he, -, -⟩ h0
      rw [runFreeze, if_neg (by simpa using h0)] at he
      cases he
    · intro h0
      refine ⟨⟨"Unable to freeze " ++ pyFilename ++ ".", run.output⟩, ?_,
        rfl, rfl⟩
      rw [runFreeze, if_pos h0]
  · constructor
    · intro h
      by_contra h0
      rw [runFreeze, if_pos h0] at h
      cases h
    · intro h0
      rw [runFreeze, if_neg (by simpa using h0)]

/-- Witness for C8: a non-zero exit with captured output raises the
failure naming the file with the output as detail. -/
theorem freeze_failure_iff_witness :
    (∃ e, runFreeze ⟨1, "SyntaxError"⟩ "bad.py" = .error e
        ∧ e.summary = "Unable to freeze " ++ "bad.py" ++ "."
        ∧ e.detail = ("SyntaxError" : String))
    ∧ (1 : Nat) ≠ 0 :=
  ⟨(freeze_failure_iff ⟨1, "SyntaxError"⟩ "bad.py").1.mpr (by decide),
    by decide⟩

/-- An error escaping a builder operation: either the single user-facing
packaging failure, or a raw Python `OSError` that no code wrapped. -/
inductive PyError where
  | user (e : UserException)
  | os (msg : String)
  deriving Repr, DecidableEq

/-- A filesystem/subprocess oracle for one build run. -/
structure FsOracle where
  copyOk : String → String → Bool
  freezeExit : String → Nat
  freezeOutput : String → String

/-- `shutil.copyfile(src, dst)` as called at builder.py line 478: no
wrapping — a failure escapes as the raw `OSError`. -/
def copyfileCall (fs : FsOracle) (src dst : String) : Except PyError Unit :=
  if fs.copyOk src dst then .ok ()
  else .error (.os ("copyfile: cannot read or write " ++ src))

/-- `self._freeze(dst_path, src_path, ...)` as called at builder.py line
476: failures are converted to the user-facing taxonomy. -/
def freezeCallE (fs : FsOracle) (src : String) : Except PyError Unit :=
  if fs.freezeExit src ≠ 0 then
    .error (.user ⟨"Unable to freeze " ++ src ++ ".",
      fs.freezeOutput src⟩)
  else .ok ()

/-- `Builder._create_file` (builder.py lines 619-629): any `open`
failure is wrapped into the user-facing taxonomy naming the path. -/
def createFileCall (openOk : Bool) (pathname errText : String) :
    Except PyError Unit :=
  if openOk then .ok ()
  else .error (.user ⟨"Unable to create file " ++ pathname ++ ".",
    errText⟩)

/-- `Builder._create_directory` (builder.py lines 631-640): any
`os.makedirs` failure is wrapped into the user-facing taxonomy. -/
def createDirectoryCall (mkdirOk : Bool) (dirName errText : String) :
    Except PyError Unit :=
  if mkdirOk then .ok ()
  else .error (.user ⟨"Unable to create the '" ++ dirName
    ++ "' directory.", errText⟩)

/-- The per-leaf side effects of `_write_package_contents` in emission
order: freeze the `.py`/`.pyw` leaves, byte-copy the rest. -/
def performEntries (fs : FsOracle) : List Entry → Except PyError Unit
  | [] => .ok ()
  | e :: rest =>
      (if e.frozen then freezeCallE fs e.srcPath
        else copyfileCall fs e.srcPath e.dstPath).bind
        (fun _ => performEntries fs rest)

/-- C9 is right and the code is wrong: the byte-copy of an included
non-Python leaf is the one failure source builder.py does not normalize —
`shutil.copyfile` at line 478 is called outside any try/except, so an
unreadable `data.bin` escapes `build` as a raw `OSError`, contradicting
`build`'s own docstring (`builder.py` line 119: "Raise a UserException if
there is an error"); every wrapped operation, by contrast, yields the
user-facing failure. -/
theorem copyfile_error_not_normalized :
    (performEntries
        ⟨fun _ _ => false, fun _ => 0, fun _ => ""⟩
        [⟨"data.bin", "build/resources/data.bin", "data.bin", false⟩]
      = .error (.os ("copyfile: cannot read or write " ++ "data.bin")))
    ∧ (∀ u : UserException,
        PyError.os ("copyfile: cannot read or write " ++ "data.bin")
          ≠ PyError.user u)
    ∧ (∀ fs src e, freezeCallE fs src = .error e → ∃ u, e = .user u)
    ∧ (∀ ok p t e, createFileCall ok p t = .error e → ∃ u, e = .user u)
    ∧ (∀ ok d t e, createDirectoryCall ok d t = .error e →
        ∃ u, e = .user u) := by
  refine ⟨rfl, fun u h => PyError.noConfusion h, ?_, ?_, ?_⟩
  · intro fs src e he
    rw [freezeCallE] at he
    by_cases h : fs.freezeExit src ≠ 0
    · rw [if_pos h] at he
      exact ⟨_, (Except.error.injEq _ _).mp he |>.symm⟩
    · rw [if_neg h] at he
      cases he
  · intro ok p t e he
    rw [createFileCall] at he
    by_cases h : ok
    · rw [if_pos h] at he; cases he
    · rw [if_neg h] at he
      exact ⟨_, (Except.error.injEq _ _).mp he |>.symm⟩
  · intro ok d t e he
    rw [createDirectoryCall] at he
    by_cases h : ok
    · rw [if_pos h] at he; cases he
    · rw [if_neg h] at he
      exact ⟨_, (Except.error.injEq _ _).mp he |>.symm⟩

/-! ## Project persistence (`Project.load` / `Project._save_project`,
project.py lines 187-492).  The XML document is modelled as an element
tree; `ElementTree.write`/`parse` (the byte-level serialization, an
external collaborator) is taken as the identity on that tree. -/

/-- An XML element: tag, attributes, child elements. -/
inductive Xml where
  | elem (tag : String) (attribs : List (String × String))
      (children : List Xml)
  deriving Repr, Inhabited

def Xml.tag : Xml → String
  | .elem t _ _ => t

def Xml.attribs : Xml → List (String × String)
  | .elem _ a _ => a

def Xml.children : Xml → List Xml
  | .elem _ _ c => c

/-- `element.get(name)`: the value of an attribute, `None` if absent. -/
def Xml.get (x : Xml) (name : String) : Option String :=
  (x.attribs.find? (fun p => p.1 = name)).map (·.2)

/-- `element.get(name, default)`. -/
def Xml.getD (x : Xml) (name dflt : String) : String :=
  (x.get name).getD dflt

/-- `element.find(tag)`: the first direct child with the tag. -/
def findTag : List Xml → String → Option Xml
  | [], _ => none
  | x :: rest, t => if x.tag = t then some x else findTag rest t

def Xml.find (x : Xml) (t : String) : Option Xml :=
  findTag x.children t

/-- `StdlibExtensionModule` (project.py lines 552-561). -/
structure StdlibExtensionModule where
  name : String
  defines : String
  includepath : String
  libs : String
  deriving Repr, DecidableEq, Inhabited

/-- `ExtensionModule` (project.py lines 564-571). -/
structure ExtensionModule where
  name : String
  path : String
  deriving Repr, DecidableEq, Inhabited

/-- The persisted data of a `Project` (project.py `__init__`, lines
112-139); the project file path (`_name`) and the `modified` flag are
session state, not persisted content. -/
structure Project where
  application_name : String
  application_is_pyqt5 : Bool
  application_package : QrcPackage
  application_script : String
  application_entry_point : String
  build_dir : String
  extension_modules : List ExtensionModule
  pyqt_modules : List String
  python_host_interpreter : String
  python_source_dir : String
  python_target_include_dir : String
  python_target_library : String
  python_target_stdlib_dir : String
  qmake : String
  packages : List QrcPackage
  stdlib_package : QrcPackage
  stdlib_extension_modules : List StdlibExtensionModule
  sys_path : String
  deriving Repr, DecidableEq, Inhabited

/-- `Project()` as constructed by `Project.__init__`. -/
def Project.init : Project :=
  { application_name := ""
    application_is_pyqt5 := true
    application_package := QrcPackage.init
    application_script := ""
    application_entry_point := ""
    build_dir := "build"
    extension_modules := []
    pyqt_modules := []
    python_host_interpreter := ""
    python_source_dir := ""
    python_target_include_dir := ""
    python_target_library := ""
    python_target_stdlib_dir := ""
    qmake := ""
    packages := [QrcPackage.init]
    stdlib_package := QrcPackage.init
    stdlib_extension_modules := []
    sys_path := "" }

/-- `str(int(bool))` as used for boolean attributes. -/
def boolAttr (b : Bool) : String := if b then "1" else "0"

mutual

/-- One `PackageContent` element (`Project._save_mfs_contents`,
project.py lines 472-485). -/
def saveContent : QrcContent → Xml
  | .file n i =>
      .elem "PackageContent"
        [("name", n), ("included", boolAttr i), ("isdirectory", "0")] []
  | .dir n i cs =>
      .elem "PackageContent"
        [("name", n), ("included", boolAttr i), ("isdirectory", "1")]
        (saveMfsContents cs)

def saveMfsContents : List QrcContent → List Xml
  | [] => []
  | c :: rest => saveContent c :: saveMfsContents rest

end

/-- `Project._save_package` (project.py lines 459-470). -/
def savePackage (package : QrcPackage) : Xml :=
  .elem "Package" [("name", package.name)]
    (saveMfsContents package.contents
      ++ package.exclusions.map (fun e => Xml.elem "Exclude" [("name", e)] []))

/-- `Project._save_project` (project.py lines 398-457), as the element
tree handed to `ElementTree.write`. -/
def saveProject (p : Project) : Xml :=
  .elem "Project" [("version", "3")]
    [ .elem "Application"
        [("entrypoint", p.application_entry_point),
         ("ispyqt5", boolAttr p.application_is_pyqt5),
         ("name", p.application_name),
         ("script", p.application_script),
         ("syspath", p.sys_path)]
        ([savePackage p.application_package]
          ++ p.pyqt_modules.map
              (fun m => Xml.elem "PyQtModule" [("name", m)] [])
          ++ [Xml.elem "SitePackages" [] (p.packages.map savePackage)]
          ++ [Xml.elem "Stdlib" []
                ([savePackage p.stdlib_package]
                  ++ p.stdlib_extension_modules.map (fun m =>
                      Xml.elem "StdlibExtensionModule"
                        [("name", m.name), ("defines", m.defines),
                         ("includepath", m.includepath),
                         ("libs", m.libs)] []))]
          ++ p.extension_modules.map (fun m =>
              Xml.elem "ExtensionModule"
                [("name", m.name), ("path", m.path)] [])),
      .elem "Python"
        [("hostinterpreter", p.python_host_interpreter),
         ("sourcedir", p.python_source_dir),
         ("targetincludedir", p.python_target_include_dir),
         ("targetlibrary", p.python_target_library),
         ("targetstdlibdir", p.python_target_stdlib_dir)] [],
      .elem "Others" [("builddir", p.build_dir), ("qmake", p.qmake)] [] ]

/-- Python's `int(s)` restricted to optionally-signed digit strings (the
only forms the saver emits; surrounding whitespace and `+` are not
modelled). `None` encodes a raised `ValueError`/`TypeError`. -/
def digitsVal (ds : List Char) : Nat :=
  ds.foldl (fun acc c => acc * 10 + (c.toNat - '0'.toNat)) 0

def pyInt? (s : String) : Option Int :=
  match s.data with
  | [] => none
  | '-' :: ds =>
      if ds.length ≠ 0 && ds.all (·.isDigit) then
        some (-(digitsVal ds : Int))
      else none
  | ds =>
      if ds.all (·.isDigit) then some (digitsVal ds : Int) else none

/-- `Project._assert` (project.py lines 487-492). -/
def passert (ok : Bool) (detail : String) : Except UserException Unit :=
  if ok then .ok ()
  else .error ⟨"The project file is invalid.", detail⟩

/-- `Project._get_bool` (project.py lines 382-396). -/
def getBoolAttr (x : Xml) (name context : String) :
    Except UserException Bool :=
  match (x.get name).bind pyInt? with
  | none =>
      .error ⟨"The project file is invalid.",
        "Missing or invalid boolean value of '" ++ context ++ "." ++ name
          ++ "'."⟩
  | some v => .ok (v ≠ 0)

mutual

/-- One `PackageContent` element of `Project._load_mfs_contents`
(project.py lines 356-380). -/
def loadContent : Xml → Except UserException QrcContent
  | x@(.elem _ _ children) => do
      let isdir ← getBoolAttr x "isdirectory" "Package.PackageContent"
      let name := x.getD "name" ""
      passert (name ≠ "")
        "Missing or empty 'Package.PackageContent.name' attribute."
      let included ← getBoolAttr x "included" "Package.PackageContent"
      if isdir then
        let cs ← loadContentsList children
        .ok (.dir name included cs)
      else
        .ok (.file name included)

/-- The `iterfind('PackageContent')` loop: children with other tags are
skipped. -/
def loadContentsList : List Xml → Except UserException (List QrcContent)
  | [] => .ok []
  | x :: rest =>
      if x.tag = "PackageContent" then do
        let c ← loadContent x
        let cs ← loadContentsList rest
        .ok (c :: cs)
      else loadContentsList rest

end

/-- The `iterfind('Exclude')` loop of `Project._load_package`
(project.py lines 347-352). -/
def loadExclusions : List Xml → Except UserException (List String)
  | [] => .ok []
  | x :: rest =>
      if x.tag = "Exclude" then do
        let name := x.getD "name" ""
        passert (name ≠ "")
          "Missing or empty 'Package.Exclude.name' attribute."
        let names ← loadExclusions rest
        .ok (name :: names)
      else loadExclusions rest

/-- `Project._load_package` (project.py lines 335-354). -/
def loadPackage (x : Xml) : Except UserException QrcPackage := do
  let name := x.get "name"
  passert (name ≠ none) "Missing 'Package.name' attribute."
  let contents ← loadContentsList x.children
  let exclusions ← loadExclusions x.children
  .ok ⟨name.getD "", contents, exclusions⟩

/-- The `iterfind('Package')` loop over `SitePackages` children
(project.py lines 263-264). -/
def loadPackagesList : List Xml → Except UserException (List QrcPackage)
  | [] => .ok []
  | x :: rest =>
      if x.tag = "Package" then do
        let p ← loadPackage x
        let ps ← loadPackagesList rest
        .ok (p :: ps)
      else loadPackagesList rest

/-- The `iterfind('PyQtModule')` loop (project.py lines 252-256). -/
def loadPyqtNames : List Xml → Except UserException (List String)
  | [] => .ok []
  | x :: rest =>
      if x.tag = "PyQtModule" then do
        let name := x.getD "name" ""
        passert (name ≠ "")
          "Missing or empty 'PyQtModule.name' attribute."
        let names ← loadPyqtNames rest
        .ok (name :: names)
      else loadPyqtNames rest

/-- The `iterfind('StdlibExtensionModule')` loop (project.py lines
285-296). -/
def loadStdlibExtModules :
    List Xml → Except UserException (List StdlibExtensionModule)
  | [] => .ok []
  | x :: rest =>
      if x.tag = "StdlibExtensionModule" then do
        let name := x.get "name"
        passert (name ≠ none)
          "Missing 'Application.Stdlib.StdlibExtensionModule.name' attribute."
        let ms ← loadStdlibExtModules rest
        .ok (⟨name.getD "", x.getD "defines" "", x.getD "includepath" "",
          x.getD "libs" ""⟩ :: ms)
      else loadStdlibExtModules rest

/-- The `iterfind('ExtensionModule')` loop (project.py lines 298-307). -/
def loadExtModules : List Xml → Except UserException (List ExtensionModule)
  | [] => .ok []
  | x :: rest =>
      if x.tag = "ExtensionModule" then do
        let name := x.get "name"
        passert (name ≠ none)
          "Missing 'Application.ExtensionModule.name' attribute."
        let path := x.get "path"
        passert (path ≠ none)
          "Missing 'Application.ExtensionModule.path' attribute."
        let ms ← loadExtModules rest
        .ok (⟨name.getD "", path.getD ""⟩ :: ms)
      else loadExtModules rest

/-- `Project.load` (project.py lines 187-315), given the parsed element
tree.  `resolveRelPath` stands for `project.relative_path` (whose result
depends on the loaded file's absolute location and on host path
normalization), applied during the version-≤2 site-packages migration. -/
def loadProject (resolveRelPath : String → String) (root : Xml) :
    Except UserException Project := do
  passert (root.tag = "Project")
    ("Unexpected root tag '" ++ root.tag ++ "', 'Project' expected.")
  let versionAttr := root.get "version"
  passert (versionAttr ≠ none) "Missing 'version' attribute."
  let version := versionAttr.bind pyInt?
  passert (version ≠ none) "Invalid 'version'."
  if (version.getD 0) > 3 then
    .error ⟨"The project's format is version "
        ++ toString (version.getD 0)
        ++ " but only version 3 is supported.", ""⟩
  else do
    let python? := root.find "Python"
    passert python?.isSome "Missing 'Python' tag."
    let python := python?.getD default
    let application? := root.find "Application"
    passert application?.isSome "Missing 'Application' tag."
    let application := application?.getD default
    let ispyqt5 ← getBoolAttr application "ispyqt5" "Application"
    let appPackage? := application.find "Package"
    passert appPackage?.isSome "Missing 'Application.Package' tag."
    let appPackage ← loadPackage (appPackage?.getD default)
    let pyqtModules ← loadPyqtNames application.children
    let sitePackages? := application.find "SitePackages"
    passert sitePackages?.isSome "Missing 'Application.SitePackages' tag."
    let packages0 ← loadPackagesList (sitePackages?.getD default).children
    let stdlibDir := python.getD "targetstdlibdir" ""
    let packages :=
      match packages0 with
      | [] => packages0
      | pk0 :: restPks =>
          if pk0.name = "" then
            if pk0.contents.length = 0 then restPks
            else { pk0 with
                name := resolveRelPath
                  (pyJoin2 stdlibDir "site-packages") } :: restPks
          else packages0
    let stdlib? := application.find "Stdlib"
    passert stdlib?.isSome "Missing 'Application.Stdlib' tag."
    let stdlib := stdlib?.getD default
    let stdlibPackage? := stdlib.find "Package"
    passert stdlibPackage?.isSome "Missing 'Application.Stdlib.Package' tag."
    let stdlibPackage ← loadPackage (stdlibPackage?.getD default)
    let stdlibExtModules ← loadStdlibExtModules stdlib.children
    let extModules ← loadExtModules application.children
    let others? := root.find "Others"
    .ok
      { application_name := application.getD "name" ""
        application_is_pyqt5 := ispyqt5
        application_package := appPackage
        application_script := application.getD "script" ""
        application_entry_point := application.getD "entrypoint" ""
        build_dir :=
          match others? with
          | some others => others.getD "builddir" ""
          | none => "build"
        extension_modules := extModules
        pyqt_modules := pyqtModules
        python_host_interpreter := python.getD "hostinterpreter" ""
        python_source_dir := python.getD "sourcedir" ""
        python_target_include_dir := python.getD "targetincludedir" ""
        python_target_library := python.getD "targetlibrary" ""
        python_target_stdlib_dir := stdlibDir
        qmake :=
          match others? with
          | some others => others.getD "qmake" ""
          | none => ""
        packages := packages
        stdlib_package := stdlibPackage
        stdlib_extension_modules := stdlibExtModules
        sys_path := application.getD "syspath" "" }

/-! ## Round trip: `_save_project` then `load` -/

mutual

/-- Well-formedness the loader's assertions impose on data the saver
emits: non-empty node names, recursively. -/
def wfContent : QrcContent → Bool
  | .file n _ => n ≠ ""
  | .dir n _ cs => n ≠ "" && wfContentsList cs

def wfContentsList : List QrcContent → Bool
  | [] => true
  | c :: rest => wfContent c && wfContentsList rest

end

mutual

theorem loadContent_save : ∀ (c : QrcContent), wfContent c = true →
    loadContent (saveContent c) = .ok c
  | .file n i, h => by
      have hn : n ≠ "" := by simpa [wfContent] using h
      cases i <;>
        simp [saveContent, loadContent, getBoolAttr, Xml.get, Xml.getD,
          Xml.attribs, boolAttr, pyInt?, passert, hn, Bind.bind, Except.bind,
          digitsVal]
  | .dir n i cs, h => by
      have h2 : ¬n = "" ∧ wfContentsList cs = true := by
        simpa [wfContent] using h
      have hn : n ≠ "" := h2.1
      have hcs : wfContentsList cs = true := h2.2
      have hrec : loadContentsList (saveMfsContents cs) = .ok cs := by
        simpa [loadContentsList, Bind.bind, Except.bind] using
          loadContentsList_save cs [] hcs
      cases i <;>
        simp [saveContent, loadContent, getBoolAttr, Xml.get, Xml.getD,
          Xml.attribs, boolAttr, pyInt?, passert, hn, Bind.bind, Except.bind,
          digitsVal, hrec, loadContentsList]

theorem loadContentsList_save : ∀ (cs : List QrcContent) (others : List Xml),
    wfContentsList cs = true →
    loadContentsList (saveMfsContents cs ++ others)
      = (loadContentsList others).bind (fun rest => .ok (cs ++ rest))
  | [], others, _ => by
      cases hlo : loadContentsList others <;>
        simp [saveMfsContents, hlo, Bind.bind, Except.bind]
  | c :: rest, others, h => by
      have h2 : wfContent c = true ∧ wfContentsList rest = true := by
        simpa [wfContentsList] using h
      have hc := h2.1
      have hrest := h2.2
      have htag : (saveContent c).tag = "PackageContent" := by
        cases c <;> rfl
      have hrec := loadContentsList_save rest others hrest
      cases hlo : loadContentsList others with
      | ok restv =>
          simp [saveMfsContents, loadContentsList, htag,
            loadContent_save c hc, hrec, hlo, Bind.bind, Except.bind]
      | error e =>
          simp [saveMfsContents, loadContentsList, htag,
            loadContent_save c hc, hrec, hlo, Bind.bind, Except.bind]

end

def wfPackage (p : QrcPackage) : Bool :=
  wfContentsList p.contents && p.exclusions.all (· ≠ "")

theorem Xml.tag_elem (t : String) (a : List (String × String))
    (c : List Xml) : (Xml.elem t a c).tag = t := rfl

theorem Xml.attribs_elem (t : String) (a : List (String × String))
    (c : List Xml) : (Xml.elem t a c).attribs = a := rfl

theorem Xml.children_elem (t : String) (a : List (String × String))
    (c : List Xml) : (Xml.elem t a c).children = c := rfl

theorem savePackage_tag (pkg : QrcPackage) :
    (savePackage pkg).tag = "Package" := rfl

theorem loadContentsList_skip (xs : List Xml)
    (h : ∀ x ∈ xs, x.tag ≠ "PackageContent") :
    loadContentsList xs = .ok [] := by
  induction xs with
  | nil => rfl
  | cons x rest ih =>
      rw [loadContentsList, if_neg (by simpa using h x (by simp))]
      exact ih (fun y hy => h y (by simp [hy]))

theorem loadExclusions_skip_contents (cs : List QrcContent)
    (others : List Xml) :
    loadExclusions (saveMfsContents cs ++ others) = loadExclusions others := by
  induction cs with
  | nil => simp [saveMfsContents]
  | cons c rest ih =>
      have htag : ¬((saveContent c).tag = "Exclude") := by
        cases c <;> simp [saveContent, Xml.tag]
      simp [saveMfsContents, loadExclusions, htag, ih]

theorem loadExclusions_saved (es : List String)
    (h : es.all (· ≠ "") = true) :
    loadExclusions (es.map (fun e => Xml.elem "Exclude" [("name", e)] []))
      = .ok es := by
  induction es with
  | nil => rfl
  | cons e rest ih =>
      have h2 : ¬e = "" ∧ rest.all (· ≠ "") = true := by simpa using h
      simp [loadExclusions, Xml.tag, Xml.getD, Xml.get, Xml.attribs, passert,
        h2.1, ih h2.2, Bind.bind, Except.bind]

theorem loadPackage_save (pkg : QrcPackage) (h : wfPackage pkg = true) :
    loadPackage (savePackage pkg) = .ok pkg := by
  have h2 : wfContentsList pkg.contents = true
      ∧ pkg.exclusions.all (· ≠ "") = true := by
    simpa [wfPackage] using h
  have hcl : loadContentsList (saveMfsContents pkg.contents
      ++ pkg.exclusions.map (fun e => Xml.elem "Exclude" [("name", e)] []))
      = .ok pkg.contents := by
    rw [loadContentsList_save pkg.contents _ h2.1,
      loadContentsList_skip _ (by
        intro x hx
        rcases List.mem_map.mp hx with ⟨e, _, rfl⟩
        simp [Xml.tag])]
    simp [Bind.bind, Except.bind]
  have hex : loadExclusions (saveMfsContents pkg.contents
      ++ pkg.exclusions.map (fun e => Xml.elem "Exclude" [("name", e)] []))
      = .ok pkg.exclusions := by
    rw [loadExclusions_skip_contents, loadExclusions_saved _ h2.2]
  simp [loadPackage, savePackage, Xml.get, Xml.attribs, Xml.children, passert,
    hcl, hex, Bind.bind, Except.bind]

theorem loadPackagesList_save (pkgs : List QrcPackage)
    (h : pkgs.all wfPackage = true) :
    loadPackagesList (pkgs.map savePackage) = .ok pkgs := by
  induction pkgs with
  | nil => rfl
  | cons pkg rest ih =>
      have h2 : wfPackage pkg = true ∧ rest.all wfPackage = true := by
        simpa using h
      have hlp : loadPackage (Xml.elem "Package" [("name", pkg.name)]
          (saveMfsContents pkg.contents
            ++ pkg.exclusions.map
                (fun e => Xml.elem "Exclude" [("name", e)] [])))
          = .ok pkg := loadPackage_save pkg h2.1
      simp [loadPackagesList, savePackage, Xml.tag, hlp, ih h2.2, Bind.bind,
        Except.bind]

theorem loadPyqtNames_skip (xs : List Xml)
    (h : ∀ x ∈ xs, x.tag ≠ "PyQtModule") :
    loadPyqtNames xs = .ok [] := by
  induction xs with
  | nil => rfl
  | cons x rest ih =>
      rw [loadPyqtNames, if_neg (by simpa using h x (by simp))]
      exact ih (fun y hy => h y (by simp [hy]))

theorem loadPyqtNames_append_skip (xs ys : List Xml)
    (h : ∀ x ∈ xs, x.tag ≠ "PyQtModule") :
    loadPyqtNames (xs ++ ys) = loadPyqtNames ys := by
  induction xs with
  | nil => simp
  | cons x rest ih =>
      rw [List.cons_append, loadPyqtNames,
        if_neg (by simpa using h x (by simp))]
      exact ih (fun y hy => h y (by simp [hy]))

theorem loadPyqtNames_saved (ms : List String) (ys : List Xml)
    (h : ms.all (· ≠ "") = true) :
    loadPyqtNames ((ms.map (fun m => Xml.elem "PyQtModule" [("name", m)] []))
        ++ ys)
      = (loadPyqtNames ys).bind (fun rest => .ok (ms ++ rest)) := by
  induction ms with
  | nil =>
      cases hys : loadPyqtNames ys <;> simp [hys, Bind.bind, Except.bind]
  | cons m rest ih =>
      have h2 : ¬m = "" ∧ rest.all (· ≠ "") = true := by simpa using h
      cases hys : loadPyqtNames ys with
      | ok v =>
          simp [loadPyqtNames, Xml.tag, Xml.getD, Xml.get, Xml.attribs,
            passert, h2.1, ih h2.2, hys, Bind.bind, Except.bind]
      | error e =>
          simp [loadPyqtNames, Xml.tag, Xml.getD, Xml.get, Xml.attribs,
            passert, h2.1, ih h2.2, hys, Bind.bind, Except.bind]

theorem loadStdlibExtModules_saved (ms : List StdlibExtensionModule) :
    loadStdlibExtModules (ms.map (fun m =>
        Xml.elem "StdlibExtensionModule"
          [("name", m.name), ("defines", m.defines),
           ("includepath", m.includepath), ("libs", m.libs)] []))
      = .ok ms := by
  induction ms with
  | nil => rfl
  | cons m rest ih =>
      simp [loadStdlibExtModules, Xml.tag, Xml.getD, Xml.get, Xml.attribs,
        passert, ih, Bind.bind, Except.bind]

theorem loadExtModules_skip (xs : List Xml)
    (h : ∀ x ∈ xs, x.tag ≠ "ExtensionModule") :
    loadExtModules xs = .ok [] := by
  induction xs with
  | nil => rfl
  | cons x rest ih =>
      rw [loadExtModules, if_neg (by simpa using h x (by simp))]
      exact ih (fun y hy => h y (by simp [hy]))

theorem loadExtModules_append_skip (xs ys : List Xml)
    (h : ∀ x ∈ xs, x.tag ≠ "ExtensionModule") :
    loadExtModules (xs ++ ys) = loadExtModules ys := by
  induction xs with
  | nil => simp
  | cons x rest ih =>
      rw [List.cons_append, loadExtModules,
        if_neg (by simpa using h x (by simp))]
      exact ih (fun y hy => h y (by simp [hy]))

theorem loadExtModules_saved (ems : List ExtensionModule) :
    loadExtModules (ems.map (fun m =>
        Xml.elem "ExtensionModule" [("name", m.name), ("path", m.path)] []))
      = .ok ems := by
  induction ems with
  | nil => rfl
  | cons m rest ih =>
      simp [loadExtModules, Xml.tag, Xml.getD, Xml.get, Xml.attribs,
        passert, ih, Bind.bind, Except.bind]

theorem findTag_append_skip (xs ys : List Xml) (t : String)
    (h : ∀ x ∈ xs, x.tag ≠ t) :
    findTag (xs ++ ys) t = findTag ys t := by
  induction xs with
  | nil => simp
  | cons x rest ih =>
      rw [List.cons_append, findTag, if_neg (h x (by simp))]
      exact ih (fun y hy => h y (by simp [hy]))

def wfProject (p : Project) : Bool :=
  wfPackage p.application_package && wfPackage p.stdlib_package
    && p.packages.all wfPackage
    && p.pyqt_modules.all (· ≠ "")
    && (match p.packages with
        | [] => true
        | pk0 :: _ => pk0.name ≠ "")

/-- C6 (amended): for every `Project` whose package-content node names,
exclusion patterns and PyQt module names are non-empty and whose first
site-packages package (if any) has a non-blank name, saving with
`_save_project` and loading the written tree with `load` yields a project
equal to the original: same package trees (application, stdlib, and every
site-packages package, with names, `included` flags, nesting and order
preserved) and equal scalar configuration fields. -/
theorem loadProject_saveProject (resolveRelPath : String → String)
    (p : Project) (hwf : wfProject p = true) :
    loadProject resolveRelPath (saveProject p) = .ok p := by
  have hw : (wfPackage p.application_package = true
        ∧ wfPackage p.stdlib_package = true
        ∧ p.packages.all wfPackage = true
        ∧ p.pyqt_modules.all (· ≠ "") = true)
      ∧ (match p.packages with
          | [] => true
          | pk0 :: _ => (pk0.name ≠ "" : Bool)) = true := by
    constructor
    · simp only [wfProject, Bool.and_eq_true] at hwf
      exact ⟨hwf.1.1.1.1, hwf.1.1.1.2, hwf.1.1.2, hwf.1.2⟩
    · simp only [wfProject, Bool.and_eq_true] at hwf
      exact hwf.2
  obtain ⟨⟨happ, hstd, hpkgs, hpyqt⟩, hhead⟩ := hw
  have hlp_app := loadPackage_save p.application_package happ
  have hlp_std := loadPackage_save p.stdlib_package hstd
  have hpl := loadPackagesList_save p.packages hpkgs
  have hpyqtTags : ∀ x ∈ p.pyqt_modules.map
      (fun m => Xml.elem "PyQtModule" [("name", m)] []), ∀ t : String,
      t ≠ "PyQtModule" → x.tag ≠ t := by
    intro x hx t ht
    rcases List.mem_map.mp hx with ⟨m, _, rfl⟩
    simpa [Xml.tag] using fun he => ht he.symm
  have hfind_sp : findTag
      (p.pyqt_modules.map
            (fun m => Xml.elem "PyQtModule" [("name", m)] [])
        ++ Xml.elem "SitePackages" [] (p.packages.map savePackage)
          :: Xml.elem "Stdlib" []
              (savePackage p.stdlib_package
                :: p.stdlib_extension_modules.map (fun m =>
                    Xml.elem "StdlibExtensionModule"
                      [("name", m.name), ("defines", m.defines),
                       ("includepath", m.includepath), ("libs", m.libs)] []))
            :: p.extension_modules.map (fun m =>
                Xml.elem "ExtensionModule"
                  [("name", m.name), ("path", m.path)] []))
      "SitePackages"
      = some (Xml.elem "SitePackages" [] (p.packages.map savePackage)) := by
    rw [findTag_append_skip _ _ _
      (fun x hx => hpyqtTags x hx _ (by decide))]
    simp [findTag, Xml.tag]
  have hfind_std : findTag
      (p.pyqt_modules.map
            (fun m => Xml.elem "PyQtModule" [("name", m)] [])
        ++ Xml.elem "SitePackages" [] (p.packages.map savePackage)
          :: Xml.elem "Stdlib" []
              (savePackage p.stdlib_package
                :: p.stdlib_extension_modules.map (fun m =>
                    Xml.elem "StdlibExtensionModule"
                      [("name", m.name), ("defines", m.defines),
                       ("includepath", m.includepath), ("libs", m.libs)] []))
            :: p.extension_modules.map (fun m =>
                Xml.elem "ExtensionModule"
                  [("name", m.name), ("path", m.path)] []))
      "Stdlib"
      = some (Xml.elem "Stdlib" []
          (savePackage p.stdlib_package
            :: p.stdlib_extension_modules.map (fun m =>
                Xml.elem "StdlibExtensionModule"
                  [("name", m.name), ("defines", m.defines),
                   ("includepath", m.includepath), ("libs", m.libs)] []))) := by
    rw [findTag_append_skip _ _ _
      (fun x hx => hpyqtTags x hx _ (by decide))]
    simp [findTag, Xml.tag]
  have hpyqtLoad : loadPyqtNames
      (p.pyqt_modules.map
            (fun m => Xml.elem "PyQtModule" [("name", m)] [])
        ++ Xml.elem "SitePackages" [] (p.packages.map savePackage)
          :: Xml.elem "Stdlib" []
              (savePackage p.stdlib_package
                :: p.stdlib_extension_modules.map (fun m =>
                    Xml.elem "StdlibExtensionModule"
                      [("name", m.name), ("defines", m.defines),
                       ("includepath", m.includepath), ("libs", m.libs)] []))
            :: p.extension_modules.map (fun m =>
                Xml.elem "ExtensionModule"
                  [("name", m.name), ("path", m.path)] []))
      = .ok p.pyqt_modules := by
    rw [loadPyqtNames_saved _ _ hpyqt]
    rw [loadPyqtNames_skip _ ?_]
    · simp [Bind.bind, Except.bind]
    · intro x hx
      rcases List.mem_cons.mp hx with rfl | hx
      · simp [Xml.tag]
      rcases List.mem_cons.mp hx with rfl | hx
      · simp [Xml.tag]
      · rcases List.mem_map.mp hx with ⟨m, _, rfl⟩
        simp [Xml.tag]
  have hextLoad : loadExtModules
      (p.pyqt_modules.map
            (fun m => Xml.elem "PyQtModule" [("name", m)] [])
        ++ Xml.elem "SitePackages" [] (p.packages.map savePackage)
          :: Xml.elem "Stdlib" []
              (savePackage p.stdlib_package
                :: p.stdlib_extension_modules.map (fun m =>
                    Xml.elem "StdlibExtensionModule"
                      [("name", m.name), ("defines", m.defines),
                       ("includepath", m.includepath), ("libs", m.libs)] []))
            :: p.extension_modules.map (fun m =>
                Xml.elem "ExtensionModule"
                  [("name", m.name), ("path", m.path)] []))
      = .ok p.extension_modules := by
    rw [loadExtModules_append_skip _ _
      (fun x hx => hpyqtTags x hx _ (by decide))]
    rw [loadExtModules, if_neg (by simp [Xml.tag])]
    rw [loadExtModules, if_neg (by simp [Xml.tag])]
    exact loadExtModules_saved p.extension_modules
  rw [saveProject, loadProject]
  cases hb : p.application_is_pyqt5 <;>
    simp [Xml.find, Xml.get, Xml.getD, Xml.tag_elem, Xml.attribs_elem,
      Xml.children_elem, savePackage_tag, passert, pyInt?, digitsVal,
      getBoolAttr, boolAttr, findTag, loadPyqtNames, loadExtModules,
      loadStdlibExtModules, loadStdlibExtModules_saved,
      Bind.bind, Except.bind, hfind_sp, hfind_std, hpyqtLoad, hextLoad,
      hpl, hlp_app, hlp_std, hb]
  all_goals
    rw [← hb]
    split
  all_goals
    first
      | rfl
      | (rename_i pk0 restPks heq
         rw [heq] at hhead
         simp at hhead
         rw [if_neg hhead])


deriving instance DecidableEq for Except

/-- Counterexample to C6 as stated: the freshly-constructed `Project()`
(whose site-packages list holds one blank-named, empty package, exactly
as `Project.__init__` builds it) does not round-trip — the loader's
version-2 migration deletes the blank-named empty first package, so the
loaded project has zero site-packages packages where the original has
one. -/
theorem project_roundtrip_counterexample :
    loadProject id (saveProject Project.init)
      = .ok { Project.init with packages := [] }
    ∧ Project.init.packages = [QrcPackage.init]
    ∧ QrcPackage.init.name = ""
    ∧ loadProject id (saveProject Project.init) ≠ .ok Project.init := by
  refine ⟨by decide, rfl, rfl, ?_⟩
  decide

/-- A concrete well-formed project exercising every part of the saved
format. -/
def roundtripSample : Project :=
  { Project.init with
    application_name := "app"
    application_package :=
      ⟨"src/app", [QrcContent.file "app.py" true,
        QrcContent.dir "pkg" true [QrcContent.file "m.py" false]], ["*.pyc"]⟩
    packages := [⟨"sp", [QrcContent.file "six.py" true], ["*.pyo"]⟩]
    pyqt_modules := ["QtCore"]
    stdlib_package :=
      ⟨"", [QrcContent.dir "json" true [QrcContent.file "tool.py" true]],
        ["x"]⟩
    stdlib_extension_modules := [⟨"math", "-DX", "/inc", "-lm"⟩]
    extension_modules := [⟨"foo", "/x/libfoo"⟩]
    python_target_stdlib_dir := "/tgt/lib"
    build_dir := "b"
    qmake := "/q"
    sys_path := "sp" }

/-- Witness for C6: the sample project satisfies the well-formedness
hypothesis and round-trips exactly. -/
theorem loadProject_saveProject_witness :
    wfProject roundtripSample = true
    ∧ loadProject id (saveProject roundtripSample)
        = .ok roundtripSample :=
  ⟨by decide, loadProject_saveProject id roundtripSample (by decide)⟩

end Pyqtdeploy
